import Mathlib

/-! MISRC extract: a shallow embedding of `misrc_extract/main.c`.

The packed 32-bit capture word carries two 12-bit ADC samples, an AUX byte and
two clip flags.  This file embeds the six scalar extraction kernels, the kernel
selection and the streaming loop of `main`, and proves properties of them.

Conventions of the embedding

* C buffers reached through pointers are total maps `Nat → _` from an element
  index to the stored value; a store `p[i] = v` is `Function.update p i v`.
  The five regions handed to a kernel (`in`, `clip`, `aux`, `outA`, `outB`)
  are distinct objects, as they are in `main`.
* `uint32_t` words and `size_t` counters are `Nat`, `int16_t` samples are `Int`.
  Every store into a narrower type goes through an explicit wrap
  (`to_int16`, `to_uint8`, `to_size_t`).  The intermediate `int` arithmetic of
  the kernels (`2048 - x`, `<< 4`) stays far inside 32 bits and is exact.
* `size_t` is 64 bits wide (the x86-64 target named by the source).
-/

namespace Misrc

/-! ## Constants -/

/-- Mask of the ADC-A field, `#define MASK_1 0xFFF`. -/
def MASK_1 : Nat := 0xFFF

/-- Mask of the ADC-B field, `#define MASK_2 0xFFF00000`. -/
def MASK_2 : Nat := 0xFFF00000

/-- Mask of the AUX field, `#define MASK_AUX 0xFF000`. -/
def MASK_AUX : Nat := 0xFF000

/-- Block capacity in words, `#define BUFFER_SIZE 65536*32`. -/
def BUFFER_SIZE : Nat := 65536*32

/-- Number of values of `size_t` (64-bit target). -/
def SIZE_T_MOD : Nat := 2^64

/-! ## Conversions on store -/

/-- Conversion of an `int` to `int16_t`: reduction modulo 2^16 into [-32768, 32767]. -/
def to_int16 (x : Int) : Int := (x + 32768) % 65536 - 32768

/-- Conversion of an unsigned value to `uint8_t`. -/
def to_uint8 (x : Nat) : Nat := x % 256

/-- Conversion of an unsigned value to `size_t`. -/
def to_size_t (x : Nat) : Nat := x % SIZE_T_MOD

/-! ## Memory seen by a kernel -/

/-- The five regions a kernel receives: `in`, `clip`, `aux`, `outA`, `outB`. -/
@[ext]
structure Mem where
  /-- The input block `in` of packed `uint32_t` words. -/
  inp : Nat → Nat
  /-- The counters `clip[0]` (channel A) and `clip[1]` (channel B). -/
  clip : Nat → Nat
  /-- The AUX byte buffer. -/
  aux : Nat → Nat
  /-- The ADC-A sample buffer. -/
  outA : Nat → Int
  /-- The ADC-B sample buffer. -/
  outB : Nat → Int

/-- The loop `for(size_t i = 0; i < len; i++) body`, entered at index `i` with
`n = len - i` iterations left. -/
def for_loop (body : Nat → Mem → Mem) : Nat → Nat → Mem → Mem
  | 0, _, m => m
  | n + 1, i, m => for_loop body n (i + 1) (body i m)

/-! ## The six scalar kernels -/

/-- Loop body of `extract_A_C`. -/
def extract_A_C_body (i : Nat) (m : Mem) : Mem :=
  { m with
    outA := Function.update m.outA i
      (to_int16 (2048 - to_int16 ((m.inp i &&& MASK_1 : Nat) : Int)))
    aux := Function.update m.aux i (to_uint8 ((m.inp i &&& MASK_AUX) >>> 12))
    clip := Function.update m.clip 0 (to_size_t (m.clip 0 + ((m.inp i >>> 12) &&& 1))) }

/-- Kernel `extract_A_C(in, len, clip, aux, outA, outB)`. -/
def extract_A_C (len : Nat) (m : Mem) : Mem := for_loop extract_A_C_body len 0 m

/-- Loop body of `extract_B_C`. -/
def extract_B_C_body (i : Nat) (m : Mem) : Mem :=
  { m with
    outB := Function.update m.outB i
      (to_int16 (2048 - to_int16 (((m.inp i &&& MASK_2) >>> 20 : Nat) : Int)))
    aux := Function.update m.aux i (to_uint8 ((m.inp i &&& MASK_AUX) >>> 12))
    clip := Function.update m.clip 1 (to_size_t (m.clip 1 + ((m.inp i >>> 13) &&& 1))) }

/-- Kernel `extract_B_C`. -/
def extract_B_C (len : Nat) (m : Mem) : Mem := for_loop extract_B_C_body len 0 m

/-- Loop body of `extract_AB_C`; the two counter updates run one after the other. -/
def extract_AB_C_body (i : Nat) (m : Mem) : Mem :=
  let clip0 := Function.update m.clip 0 (to_size_t (m.clip 0 + ((m.inp i >>> 12) &&& 1)))
  { m with
    outA := Function.update m.outA i
      (to_int16 (2048 - to_int16 ((m.inp i &&& MASK_1 : Nat) : Int)))
    outB := Function.update m.outB i
      (to_int16 (2048 - to_int16 (((m.inp i &&& MASK_2) >>> 20 : Nat) : Int)))
    aux := Function.update m.aux i (to_uint8 ((m.inp i &&& MASK_AUX) >>> 12))
    clip := Function.update clip0 1 (to_size_t (clip0 1 + ((m.inp i >>> 13) &&& 1))) }

/-- Kernel `extract_AB_C`. -/
def extract_AB_C (len : Nat) (m : Mem) : Mem := for_loop extract_AB_C_body len 0 m

/-- Loop body of `extract_A_p_C`; `<< 4` on the `int` difference is a
multiplication by `2 ^ 4`. -/
def extract_A_p_C_body (i : Nat) (m : Mem) : Mem :=
  { m with
    outA := Function.update m.outA i
      (to_int16 ((2048 - to_int16 ((m.inp i &&& MASK_1 : Nat) : Int)) * 2 ^ 4))
    aux := Function.update m.aux i (to_uint8 ((m.inp i &&& MASK_AUX) >>> 12))
    clip := Function.update m.clip 0 (to_size_t (m.clip 0 + ((m.inp i >>> 12) &&& 1))) }

/-- Kernel `extract_A_p_C`. -/
def extract_A_p_C (len : Nat) (m : Mem) : Mem := for_loop extract_A_p_C_body len 0 m

/-- Loop body of `extract_B_p_C`. -/
def extract_B_p_C_body (i : Nat) (m : Mem) : Mem :=
  { m with
    outB := Function.update m.outB i
      (to_int16 ((2048 - to_int16 (((m.inp i &&& MASK_2) >>> 20 : Nat) : Int)) * 2 ^ 4))
    aux := Function.update m.aux i (to_uint8 ((m.inp i &&& MASK_AUX) >>> 12))
    clip := Function.update m.clip 1 (to_size_t (m.clip 1 + ((m.inp i >>> 13) &&& 1))) }

/-- Kernel `extract_B_p_C`. -/
def extract_B_p_C (len : Nat) (m : Mem) : Mem := for_loop extract_B_p_C_body len 0 m

/-- Loop body of `extract_AB_p_C`. -/
def extract_AB_p_C_body (i : Nat) (m : Mem) : Mem :=
  let clip0 := Function.update m.clip 0 (to_size_t (m.clip 0 + ((m.inp i >>> 12) &&& 1)))
  { m with
    outA := Function.update m.outA i
      (to_int16 ((2048 - to_int16 ((m.inp i &&& MASK_1 : Nat) : Int)) * 2 ^ 4))
    outB := Function.update m.outB i
      (to_int16 ((2048 - to_int16 (((m.inp i &&& MASK_2) >>> 20 : Nat) : Int)) * 2 ^ 4))
    aux := Function.update m.aux i (to_uint8 ((m.inp i &&& MASK_AUX) >>> 12))
    clip := Function.update clip0 1 (to_size_t (clip0 1 + ((m.inp i >>> 13) &&& 1))) }

/-- Kernel `extract_AB_p_C`. -/
def extract_AB_p_C (len : Nat) (m : Mem) : Mem := for_loop extract_AB_p_C_body len 0 m

/-- Identities of the six scalar kernels. -/
inductive ScalarKernel
  | A_C | B_C | AB_C | A_p_C | B_p_C | AB_p_C
  deriving DecidableEq, Repr

/-- The kernel function behind each identity. -/
def ScalarKernel.run : ScalarKernel → Nat → Mem → Mem
  | .A_C => extract_A_C
  | .B_C => extract_B_C
  | .AB_C => extract_AB_C
  | .A_p_C => extract_A_p_C
  | .B_p_C => extract_B_p_C
  | .AB_p_C => extract_AB_p_C

/-- The memory seen through the pointers `in + off`, `aux + off`, `outA + off`,
`outB + off`; the counter pair is passed as it is. -/
def Mem.advance (off : Nat) (m : Mem) : Mem :=
  { inp := fun j => m.inp (off + j)
    clip := m.clip
    aux := fun j => m.aux (off + j)
    outA := fun j => m.outA (off + j)
    outB := fun j => m.outB (off + j) }

/-- The memory after a call made through pointers advanced by `off`: elements below `off`
are those of `orig`, element `off + j` is element `j` of the callee's result `res`. -/
def Mem.write_back (off : Nat) (orig res : Mem) : Mem :=
  { inp := fun k => if k < off then orig.inp k else res.inp (k - off)
    clip := res.clip
    aux := fun k => if k < off then orig.aux k else res.aux (k - off)
    outA := fun k => if k < off then orig.outA k else res.outA (k - off)
    outB := fun k => if k < off then orig.outB k else res.outB (k - off) }

/-- The call `kernel(in + off, len, clip, aux + off, outA + off, outB + off)`. -/
def run_advanced (kernel : Nat → Mem → Mem) (off len : Nat) (m : Mem) : Mem :=
  Mem.write_back off m (kernel len (m.advance off))

/-! ## Kernel selection in `main` -/

/-- The twelve functions `conv_function` can point to. -/
inductive ConvFunction
  | extract_A_C | extract_B_C | extract_AB_C
  | extract_A_p_C | extract_B_p_C | extract_AB_p_C
  | extract_A_sse | extract_B_sse | extract_AB_sse
  | extract_A_p_sse | extract_B_p_sse | extract_AB_p_sse
  deriving DecidableEq, Repr

/-- The parsed command line of `main`: the four names (absent when `NULL`) and `pad`,
which the option loop sets to 0 or 1. -/
structure Config where
  /-- Option `-i`. -/
  input_name_1 : Option String
  /-- Option `-a`. -/
  output_name_1 : Option String
  /-- Option `-b`. -/
  output_name_2 : Option String
  /-- Option `-x`. -/
  output_name_aux : Option String
  /-- Option `-p`: `pad == 1`. -/
  pad : Bool

/-- The assignment of `conv_function` in `main`.  `x86_64` tells whether the build has the
vector branch (`#if defined(__x86_64__) || defined(_M_X64)`), `check_cpu_feat` is the value
returned by the probe of that name; the vector kernels are taken when it is 0. -/
def select_conv_function (x86_64 : Bool) (check_cpu_feat : Int) (pad : Bool)
    (output_name_1 output_name_2 : Option String) : ConvFunction :=
  if x86_64 && check_cpu_feat == 0 then
    if pad then
      if output_name_1.isNone then .extract_B_p_sse
      else if output_name_2.isNone then .extract_A_p_sse
      else .extract_AB_p_sse
    else
      if output_name_1.isNone then .extract_B_sse
      else if output_name_2.isNone then .extract_A_sse
      else .extract_AB_sse
  else
    if pad then
      if output_name_1.isNone then .extract_B_p_C
      else if output_name_2.isNone then .extract_A_p_C
      else .extract_AB_p_C
    else
      if output_name_1.isNone then .extract_B_C
      else if output_name_2.isNone then .extract_A_C
      else .extract_AB_C

/-- The scalar variant of the same name: the variant itself for a `_C` kernel. -/
def ConvFunction.variant : ConvFunction → ScalarKernel
  | .extract_A_C | .extract_A_sse => .A_C
  | .extract_B_C | .extract_B_sse => .B_C
  | .extract_AB_C | .extract_AB_sse => .AB_C
  | .extract_A_p_C | .extract_A_p_sse => .A_p_C
  | .extract_B_p_C | .extract_B_p_sse => .B_p_C
  | .extract_AB_p_C | .extract_AB_p_sse => .AB_p_C

/-- The sample of a raw field value as the claims word it: `2048 - raw`, and with the pad
flag `16 * (2048 - raw)` reduced modulo 2^16 into the signed 16-bit range. -/
def spec_sample (pad : Bool) (raw : Nat) : Int :=
  if pad then (16 * (2048 - (raw : Int)) + 32768) % 65536 - 32768 else 2048 - (raw : Int)

/-- Modelled from the spec: the vector kernels `extract_*_sse`, which the source only
declares.  The spec gives them the contract of the kernel of their variant: for every
index below `len` the sample `2048 - raw` (shifted left by 4 into 16 bits when padded) in
each ADC buffer the variant writes, the byte `(word >> 12) & 0xFF` in the AUX buffer, each
counter the variant writes advanced by the number of words of the block with bit 12 (for
A) or bit 13 (for B) set, and nothing else changed. -/
def vector_contract (writes_A writes_B pad : Bool) (len : Nat) (m : Mem) : Mem :=
  { inp := m.inp
    clip := fun k =>
      if k = 0 ∧ writes_A = true then
        (m.clip 0 + ((List.range len).filter (fun i => (m.inp i).testBit 12)).length)
          % SIZE_T_MOD
      else if k = 1 ∧ writes_B = true then
        (m.clip 1 + ((List.range len).filter (fun i => (m.inp i).testBit 13)).length)
          % SIZE_T_MOD
      else m.clip k
    aux := fun i => if i < len then (m.inp i >>> 12) &&& 0xFF else m.aux i
    outA := fun i =>
      if writes_A = true ∧ i < len then spec_sample pad (m.inp i &&& 0xFFF) else m.outA i
    outB := fun i =>
      if writes_B = true ∧ i < len then spec_sample pad ((m.inp i >>> 20) &&& 0xFFF)
      else m.outB i }

/-- The function behind each value of `conv_function`: the source's code for the six `_C`
kernels, the contract above for the six vector kernels. -/
def ConvFunction.run : ConvFunction → Nat → Mem → Mem
  | .extract_A_C => Misrc.extract_A_C
  | .extract_B_C => Misrc.extract_B_C
  | .extract_AB_C => Misrc.extract_AB_C
  | .extract_A_p_C => Misrc.extract_A_p_C
  | .extract_B_p_C => Misrc.extract_B_p_C
  | .extract_AB_p_C => Misrc.extract_AB_p_C
  | .extract_A_sse => vector_contract true false false
  | .extract_B_sse => vector_contract false true false
  | .extract_AB_sse => vector_contract true true false
  | .extract_A_p_sse => vector_contract true false true
  | .extract_B_p_sse => vector_contract false true true
  | .extract_AB_p_sse => vector_contract true true true

/-- The vector kernel of each variant. -/
def ScalarKernel.vector : ScalarKernel → ConvFunction
  | .A_C => .extract_A_sse
  | .B_C => .extract_B_sse
  | .AB_C => .extract_AB_sse
  | .A_p_C => .extract_A_p_sse
  | .B_p_C => .extract_B_p_sse
  | .AB_p_C => .extract_AB_p_sse

/-- Kernels of the scalar set. -/
def ConvFunction.is_scalar : ConvFunction → Bool
  | .extract_A_C | .extract_B_C | .extract_AB_C
  | .extract_A_p_C | .extract_B_p_C | .extract_AB_p_C => true
  | _ => false

/-- Variants that write `outA` (columns of the variant matrix). -/
def ScalarKernel.writes_A : ScalarKernel → Bool
  | .A_C | .AB_C | .A_p_C | .AB_p_C => true
  | _ => false

/-- Variants that write `outB`. -/
def ScalarKernel.writes_B : ScalarKernel → Bool
  | .B_C | .AB_C | .B_p_C | .AB_p_C => true
  | _ => false

/-- Variants that shift the sample left by 4. -/
def ScalarKernel.padded : ScalarKernel → Bool
  | .A_p_C | .B_p_C | .AB_p_C => true
  | _ => false

/-! ## The streaming loop of `main` -/

/-- Conversion of an integer value to `int` (32 bits). -/
def to_int32 (x : Int) : Int := (x + 2147483648) % 4294967296 - 2147483648

/-- Conversion of an `int` to `size_t`. -/
def int_to_size_t (x : Int) : Nat := (x % (SIZE_T_MOD : Int)).toNat

/-- What one call `fread(buf_tmp, 4, BUFFER_SIZE, input_1)` does: the complete words it
stores (their number is the value returned) and whether the end-of-file indicator of the
stream is set when it returns.  A return of 0 with `eof = false` is a read error. -/
structure ReadResult where
  /-- The words stored at the start of `buf_tmp`. -/
  words : List Nat
  /-- The value `feof(input_1)` has after the call. -/
  eof : Bool

/-- A diagnostic line printed on `stderr` by the loop. -/
inductive Diag
  /-- The line `ADC A : n samples clipped`. -/
  | clipped_A (n : Nat)
  /-- The line `ADC B : n samples clipped`. -/
  | clipped_B (n : Nat)
  deriving DecidableEq, Repr

/-- The variables of `main` the loop works on, and what it has done so far: one entry per
`fwrite` call on each output (the elements written), the lines printed, and the value
`nb_block` received from each `fread` call. -/
structure DriverState where
  /-- The word buffer. -/
  buf_tmp : Nat → Nat
  /-- The ADC-A buffer. -/
  buf_1 : Nat → Int
  /-- The ADC-B buffer. -/
  buf_2 : Nat → Int
  /-- The AUX buffer. -/
  buf_aux : Nat → Nat
  /-- The counters `clip[0]`, `clip[1]`. -/
  clip : Nat → Nat
  /-- Writes made on `output_1`. -/
  output_1 : List (List Int)
  /-- Writes made on `output_2`. -/
  output_2 : List (List Int)
  /-- Writes made on `output_aux`. -/
  output_aux : List (List Nat)
  /-- Lines printed on `stderr`. -/
  stderr : List Diag
  /-- Values of `nb_block`, one per `fread` call. -/
  fread_returns : List Int

/-- The state when the loop is reached: buffers as allocated (any contents),
`clip = {0, 0}`, nothing written or read yet. -/
def initial_state (buf_tmp : Nat → Nat) (buf_1 buf_2 : Nat → Int) (buf_aux : Nat → Nat) :
    DriverState :=
  { buf_tmp := buf_tmp, buf_1 := buf_1, buf_2 := buf_2, buf_aux := buf_aux
    clip := fun _ => 0
    output_1 := [], output_2 := [], output_aux := [], stderr := [], fread_returns := [] }

/-- The buffer after `fread` has stored `words` at its start. -/
def fread_store (words : List Nat) (buf : Nat → Nat) : Nat → Nat :=
  fun i => if i < words.length then words.getD i 0 else buf i

/-- One pass through the body of `while(!feof(input_1))`, for the outcome `r` of its
`fread` call: convert, report and reset the counters, write the selected outputs. -/
def loop_body (conv_function : Nat → Mem → Mem) (cfg : Config) (r : ReadResult)
    (s : DriverState) : DriverState :=
  let nb_block : Int := to_int32 (r.words.length : Int)
  let m := conv_function (int_to_size_t nb_block)
    { inp := fread_store r.words s.buf_tmp, clip := s.clip, aux := s.buf_aux,
      outA := s.buf_1, outB := s.buf_2 }
  let clip_a := if m.clip 0 > 0 then Function.update m.clip 0 0 else m.clip
  let err_a := if m.clip 0 > 0 then s.stderr ++ [Diag.clipped_A (m.clip 0)] else s.stderr
  let clip_b := if clip_a 1 > 0 then Function.update clip_a 1 0 else clip_a
  let err_b := if clip_a 1 > 0 then err_a ++ [Diag.clipped_B (clip_a 1)] else err_a
  { buf_tmp := m.inp, buf_1 := m.outA, buf_2 := m.outB, buf_aux := m.aux
    clip := clip_b
    output_1 :=
      if cfg.output_name_1.isSome then
        s.output_1 ++ [(List.range (int_to_size_t nb_block)).map m.outA]
      else s.output_1
    output_2 :=
      if cfg.output_name_2.isSome then
        s.output_2 ++ [(List.range (int_to_size_t nb_block)).map m.outB]
      else s.output_2
    output_aux :=
      if cfg.output_name_aux.isSome then
        s.output_aux ++ [(List.range (int_to_size_t nb_block)).map m.aux]
      else s.output_aux
    stderr := err_b
    fread_returns := s.fread_returns ++ [nb_block] }

/-- The loop `while(!feof(input_1)) { ... }`, entered with the end-of-file indicator clear.
`reads` lists the outcomes of the successive `fread` calls; when it is used up the stream
is at its end, so the next call returns 0 and sets the indicator. -/
def main_loop (conv_function : Nat → Mem → Mem) (cfg : Config) :
    List ReadResult → DriverState → DriverState
  | [], s => loop_body conv_function cfg { words := [], eof := true } s
  | r :: rest, s =>
    if r.eof then loop_body conv_function cfg r s
    else main_loop conv_function cfg rest (loop_body conv_function cfg r s)

/-- The check before the files are opened: `usage()` is called, and the program exits. -/
def usage_called (cfg : Config) : Bool :=
  cfg.input_name_1.isNone ||
    (cfg.output_name_1.isSome && cfg.output_name_2.isSome && cfg.output_name_aux.isSome)

/-- The part of `main` from the configuration check to the end of the loop, all files
opening successfully: `none` when `usage()` ends the program, else the final state. -/
def main_run (x86_64 : Bool) (check_cpu_feat : Int) (cfg : Config) (reads : List ReadResult)
    (s : DriverState) : Option DriverState :=
  if usage_called cfg then none
  else if cfg.input_name_1.isSome &&
      (cfg.output_name_1.isSome || cfg.output_name_2.isSome || cfg.output_name_aux.isSome) then
    some (main_loop
      (select_conv_function x86_64 check_cpu_feat cfg.pad cfg.output_name_1
        cfg.output_name_2).run cfg reads s)
  else some s

/-- The `fread` outcomes for an input delivered as the blocks `chunks`: no block but the
last can come with the end-of-file indicator, the last one does when `short_last`. -/
def clean_reads : List (List Nat) → Bool → List ReadResult
  | [], _ => []
  | [c], short_last => [{ words := c, eof := short_last }]
  | c :: d :: cs, short_last => { words := c, eof := false } :: clean_reads (d :: cs) short_last

/-- A configuration reading `in.bin` with the given outputs. -/
def cfg_example (a b x : Bool) (pad : Bool) : Config :=
  { input_name_1 := some "in.bin"
    output_name_1 := if a then some "a.s16" else none
    output_name_2 := if b then some "b.s16" else none
    output_name_aux := if x then some "aux.u8" else none
    pad := pad }

/-- The state at the start of the loop with zeroed buffers. -/
def state_example : DriverState :=
  initial_state (fun _ => 0) (fun _ => 0) (fun _ => 0) (fun _ => 0)

/-- A small memory used to run the kernels on concrete words. -/
def mem_example : Mem :=
  { inp := fun i => [0xFFF00FFF, 0x00003000, 0xABCDEF12, 0].getD i 0
    clip := fun _ => 0
    aux := fun _ => 0
    outA := fun _ => 0
    outB := fun _ => 0 }

/-- The all-zero memory: the single input word `0x00000000` of the zero scenario. -/
def mem_zero : Mem :=
  { inp := fun _ => 0
    clip := fun _ => 0
    aux := fun _ => 0
    outA := fun _ => 0
    outB := fun _ => 0 }

/-! ## A uniform description of the six loop bodies -/

/-- The sample a kernel stores for a 12-bit field value held in `raw`. -/
def sample (pad : Bool) (raw : Nat) : Int :=
  if pad then to_int16 ((2048 - to_int16 (raw : Int)) * 2 ^ 4)
  else to_int16 (2048 - to_int16 (raw : Int))

/-- The AUX byte a kernel stores for the word `w`. -/
def aux_byte (w : Nat) : Nat := to_uint8 ((w &&& MASK_AUX) >>> 12)

/-- One loop body for all six kernels, switched by the channels written and the pad flag. -/
def gen_body (a b p : Bool) (i : Nat) (m : Mem) : Mem :=
  let clip0 := if a then
      Function.update m.clip 0 (to_size_t (m.clip 0 + ((m.inp i >>> 12) &&& 1)))
    else m.clip
  { inp := m.inp
    outA := if a then Function.update m.outA i (sample p (m.inp i &&& MASK_1)) else m.outA
    outB := if b then Function.update m.outB i (sample p ((m.inp i &&& MASK_2) >>> 20))
      else m.outB
    aux := Function.update m.aux i (aux_byte (m.inp i))
    clip := if b then
        Function.update clip0 1 (to_size_t (clip0 1 + ((m.inp i >>> 13) &&& 1)))
      else clip0 }

/-- The counter after `n` iterations from index `i`, adding bit `bit` of each word. -/
def clip_acc (bit : Nat) (inp : Nat → Nat) : Nat → Nat → Nat → Nat
  | 0, _, c => c
  | n + 1, i, c => clip_acc bit inp n (i + 1) (to_size_t (c + ((inp i >>> bit) &&& 1)))

/-- Closed form of the memory after `n` iterations of `gen_body` from index `i`. -/
def gen_result (a b p : Bool) (n i : Nat) (m : Mem) : Mem :=
  { inp := m.inp
    outA := fun j =>
      if a = true ∧ i ≤ j ∧ j < i + n then sample p (m.inp j &&& MASK_1) else m.outA j
    outB := fun j =>
      if b = true ∧ i ≤ j ∧ j < i + n then sample p ((m.inp j &&& MASK_2) >>> 20)
      else m.outB j
    aux := fun j => if i ≤ j ∧ j < i + n then aux_byte (m.inp j) else m.aux j
    clip := fun k =>
      if k = 0 ∧ a = true then clip_acc 12 m.inp n i (m.clip 0)
      else if k = 1 ∧ b = true then clip_acc 13 m.inp n i (m.clip 1)
      else m.clip k }

/-- Number of words among `inp i, …, inp (i + n - 1)` with bit `bit` set. -/
def clip_count (bit : Nat) (inp : Nat → Nat) (i n : Nat) : Nat :=
  ((List.range' i n).map (fun j => (inp j >>> bit) &&& 1)).sum

/-- The words received by each `fread` call the loop makes on `clean_reads chunks short_last`:
the blocks, and a final empty read unless the last block came with the indicator. -/
def performed_reads : List (List Nat) → Bool → List (List Nat)
  | [], _ => [[]]
  | [c], short_last => if short_last then [c] else [c, []]
  | c :: d :: cs, short_last => c :: performed_reads (d :: cs) short_last

/-- State `t` is state `s` after one more pass of the loop per block of `blocks`, as far
as the outputs and the read log go: each selected output got one write per block holding
the encoding of its words, each other output got none. -/
def Appended (cfg : Config) (pad : Bool) (s t : DriverState) (blocks : List (List Nat)) : Prop :=
  t.output_1 = (if cfg.output_name_1.isSome then
      s.output_1 ++ blocks.map (List.map (fun w => sample pad (w &&& 0xFFF)))
    else s.output_1) ∧
  t.output_2 = (if cfg.output_name_2.isSome then
      s.output_2 ++ blocks.map (List.map (fun w => sample pad ((w >>> 20) &&& 0xFFF)))
    else s.output_2) ∧
  t.output_aux = (if cfg.output_name_aux.isSome then
      s.output_aux ++ blocks.map (List.map (fun w => (w >>> 12) &&& 0xFF))
    else s.output_aux) ∧
  t.fread_returns = s.fread_returns ++ blocks.map (fun b => (b.length : Int))

/-- The passes the loop makes on `reads` from state `s`: for each pass the state at its
start and the outcome of its `fread` call, in order (the instrumented form of
`main_loop`). -/
def iterations (conv_function : Nat → Mem → Mem) (cfg : Config) :
    List ReadResult → DriverState → List (DriverState × ReadResult)
  | [], s => [(s, { words := [], eof := true })]
  | r :: rest, s =>
    (s, r) :: (if r.eof then []
      else iterations conv_function cfg rest (loop_body conv_function cfg r s))

/-- The clip lines due for one block alone: for each channel the kernel counts, the
number of words of the block with the flag bit set, when that number is positive. -/
def block_reports (f : ConvFunction) (words : List Nat) : List Diag :=
  (if f.variant.writes_A = true ∧ 0 < (words.filter (fun w => w.testBit 12)).length then
    [Diag.clipped_A (words.filter (fun w => w.testBit 12)).length] else []) ++
  (if f.variant.writes_B = true ∧ 0 < (words.filter (fun w => w.testBit 13)).length then
    [Diag.clipped_B (words.filter (fun w => w.testBit 13)).length] else [])

/-! ## Lemmas on the loop -/

theorem extract_A_C_body_eq : extract_A_C_body = gen_body true false false := rfl

theorem extract_B_C_body_eq : extract_B_C_body = gen_body false true false := rfl

theorem extract_AB_C_body_eq : extract_AB_C_body = gen_body true true false := rfl

theorem extract_A_p_C_body_eq : extract_A_p_C_body = gen_body true false true := rfl

theorem extract_B_p_C_body_eq : extract_B_p_C_body = gen_body false true true := rfl

theorem extract_AB_p_C_body_eq : extract_AB_p_C_body = gen_body true true true := rfl

theorem for_loop_gen_body (a b p : Bool) (n : Nat) :
    ∀ (i : Nat) (m : Mem), for_loop (gen_body a b p) n i m = gen_result a b p n i m := by
  induction n with
  | zero =>
    intro i m
    ext k <;> cases a <;> cases b <;>
      simp only [for_loop, gen_result, clip_acc, Bool.false_eq_true, false_and, and_false,
        and_true, true_and, if_false] <;>
      split_ifs <;> first | rfl | omega | (subst_vars; rfl)
  | succ n ih =>
    intro i m
    rw [for_loop, ih]
    ext k
    · rfl
    · cases a <;> cases b <;>
        simp only [gen_result, gen_body, clip_acc, Bool.false_eq_true, false_and, and_false,
          and_true, true_and, if_false, if_true, Function.update_apply] <;>
        split_ifs <;> simp_all
    · simp only [gen_result, gen_body, Function.update_apply]
      split_ifs <;> first | omega | (subst_vars; simp)
    · cases a <;>
        simp only [gen_result, gen_body, Bool.false_eq_true, false_and, if_false, if_true,
          true_and, Function.update_apply]
      split_ifs <;> first | omega | (subst_vars; simp)
    · cases b <;>
        simp only [gen_result, gen_body, Bool.false_eq_true, false_and, if_false, if_true,
          true_and, Function.update_apply]
      split_ifs <;> first | omega | (subst_vars; simp)

/-- Each kernel is its loop run from index 0, hence the closed form, switched by the
columns of the variant matrix. -/
theorem run_eq (k : ScalarKernel) (len : Nat) (m : Mem) :
    k.run len m = gen_result k.writes_A k.writes_B k.padded len 0 m := by
  cases k
  · exact for_loop_gen_body true false false len 0 m
  · exact for_loop_gen_body false true false len 0 m
  · exact for_loop_gen_body true true false len 0 m
  · exact for_loop_gen_body true false true len 0 m
  · exact for_loop_gen_body false true true len 0 m
  · exact for_loop_gen_body true true true len 0 m

/-! ## Arithmetic of one word -/

theorem and_shiftRight (x y k : Nat) : (x &&& y) >>> k = (x >>> k) &&& (y >>> k) := by
  apply Nat.eq_of_testBit_eq
  intro j
  simp [Nat.testBit_shiftRight, Nat.testBit_and]

theorem raw_B_eq (w : Nat) : (w &&& MASK_2) >>> 20 = (w >>> 20) &&& 0xFFF := by
  rw [and_shiftRight]
  rfl

theorem aux_byte_eq (w : Nat) : aux_byte w = (w >>> 12) &&& 0xFF := by
  have h : (w &&& MASK_AUX) >>> 12 = (w >>> 12) &&& 0xFF := by
    rw [and_shiftRight]
    rfl
  have hle : (w >>> 12) &&& 0xFF ≤ 0xFF := Nat.and_le_right
  unfold aux_byte to_uint8
  rw [h]
  omega

theorem to_int16_of_range (x : Int) (h1 : -32768 ≤ x) (h2 : x ≤ 32767) : to_int16 x = x := by
  unfold to_int16
  omega

theorem sample_unpadded (raw : Nat) (h : raw ≤ 4095) :
    sample false raw = 2048 - (raw : Int) := by
  simp only [sample, Bool.false_eq_true, if_false]
  rw [to_int16_of_range (raw : Int) (by omega) (by omega)]
  exact to_int16_of_range _ (by omega) (by omega)

theorem sample_padded (raw : Nat) (h : raw ≤ 4095) :
    sample true raw = (16 * (2048 - (raw : Int)) + 32768) % 65536 - 32768 := by
  simp only [sample, if_true]
  rw [to_int16_of_range (raw : Int) (by omega) (by omega)]
  unfold to_int16
  omega

theorem sample_padded_cases (raw : Nat) (h : raw ≤ 4095) :
    sample true raw = if raw = 0 then -32768 else 16 * (2048 - (raw : Int)) := by
  rw [sample_padded raw h]
  split_ifs <;> omega

/-! ## Counting clip bits -/

theorem clip_acc_eq (bit : Nat) (inp : Nat → Nat) (n : Nat) :
    ∀ (i c : Nat), c < SIZE_T_MOD →
      clip_acc bit inp n i c = (c + clip_count bit inp i n) % SIZE_T_MOD := by
  induction n with
  | zero =>
    intro i c hc
    simp [clip_acc, clip_count, Nat.mod_eq_of_lt hc]
  | succ n ih =>
    intro i c hc
    have hpos : 0 < SIZE_T_MOD := by unfold SIZE_T_MOD; omega
    have hlt : to_size_t (c + (inp i >>> bit &&& 1)) < SIZE_T_MOD := Nat.mod_lt _ hpos
    rw [clip_acc, ih (i + 1) _ hlt]
    simp only [clip_count, to_size_t, List.range'_succ, List.map_cons, List.sum_cons]
    rw [Nat.add_mod, Nat.mod_mod, ← Nat.add_mod, Nat.add_assoc]

theorem shift_and_one (w bit : Nat) : (w >>> bit) &&& 1 = if w.testBit bit then 1 else 0 := by
  rw [Nat.and_one_is_mod, Nat.testBit_to_div_mod, Nat.shiftRight_eq_div_pow]
  by_cases h : w / 2 ^ bit % 2 = 1
  · simp [h]
  · have : w / 2 ^ bit % 2 = 0 := by omega
    simp [this]

theorem clip_count_eq_filter (bit : Nat) (inp : Nat → Nat) (n : Nat) :
    ∀ i, clip_count bit inp i n =
      ((List.range' i n).filter (fun j => (inp j).testBit bit)).length := by
  induction n with
  | zero => intro i; simp [clip_count]
  | succ n ih =>
    intro i
    have h := ih (i + 1)
    unfold clip_count at h ⊢
    rw [List.range'_succ, List.map_cons, List.sum_cons, h, shift_and_one, List.filter_cons]
    split_ifs
    · simp; omega
    · simp

/-! ## Closed forms of the six kernels -/

theorem extract_A_C_eq (len : Nat) (m : Mem) :
    extract_A_C len m = gen_result true false false len 0 m :=
  for_loop_gen_body true false false len 0 m

theorem extract_B_C_eq (len : Nat) (m : Mem) :
    extract_B_C len m = gen_result false true false len 0 m :=
  for_loop_gen_body false true false len 0 m

theorem extract_AB_C_eq (len : Nat) (m : Mem) :
    extract_AB_C len m = gen_result true true false len 0 m :=
  for_loop_gen_body true true false len 0 m

theorem extract_A_p_C_eq (len : Nat) (m : Mem) :
    extract_A_p_C len m = gen_result true false true len 0 m :=
  for_loop_gen_body true false true len 0 m

theorem extract_B_p_C_eq (len : Nat) (m : Mem) :
    extract_B_p_C len m = gen_result false true true len 0 m :=
  for_loop_gen_body false true true len 0 m

theorem extract_AB_p_C_eq (len : Nat) (m : Mem) :
    extract_AB_p_C len m = gen_result true true true len 0 m :=
  for_loop_gen_body true true true len 0 m

theorem gen_result_outA (b p : Bool) (len : Nat) (m : Mem) (i : Nat) (h : i < len) :
    (gen_result true b p len 0 m).outA i = sample p (m.inp i &&& 0xFFF) := by
  simp [gen_result, h, MASK_1]

theorem gen_result_outB (a p : Bool) (len : Nat) (m : Mem) (i : Nat) (h : i < len) :
    (gen_result a true p len 0 m).outB i = sample p ((m.inp i >>> 20) &&& 0xFFF) := by
  simp [gen_result, h, raw_B_eq]

theorem gen_result_aux (a b p : Bool) (len : Nat) (m : Mem) (i : Nat) (h : i < len) :
    (gen_result a b p len 0 m).aux i = (m.inp i >>> 12) &&& 0xFF := by
  simp [gen_result, h, aux_byte_eq]

theorem and_fff_le (x : Nat) : x &&& 0xFFF ≤ 4095 := Nat.and_le_right

theorem run_aux (k : ScalarKernel) (len : Nat) (m : Mem) (i : Nat) (h : i < len) :
    (k.run len m).aux i = (m.inp i >>> 12) &&& 0xFF := by
  rw [run_eq]
  exact gen_result_aux _ _ _ len m i h

/-! ## Claims on the kernels -/

/-- C1: for every block and every index `i < len`, `extract_A_C` and `extract_AB_C` store
`2048 - (in[i] & 0xFFF)` in `outA[i]`, `extract_B_C` and `extract_AB_C` store
`2048 - ((in[i] >> 20) & 0xFFF)` in `outB[i]`, and each stored value lies in [-2047, 2048]. -/
theorem unpadded_sample_correct (len : Nat) (m : Mem) (i : Nat) (h : i < len) :
    ((extract_A_C len m).outA i = 2048 - ((m.inp i &&& 0xFFF : Nat) : Int) ∧
      (extract_AB_C len m).outA i = 2048 - ((m.inp i &&& 0xFFF : Nat) : Int) ∧
      (extract_B_C len m).outB i = 2048 - (((m.inp i >>> 20) &&& 0xFFF : Nat) : Int) ∧
      (extract_AB_C len m).outB i = 2048 - (((m.inp i >>> 20) &&& 0xFFF : Nat) : Int)) ∧
    (-2047 ≤ (extract_A_C len m).outA i ∧ (extract_A_C len m).outA i ≤ 2048) ∧
    (-2047 ≤ (extract_AB_C len m).outA i ∧ (extract_AB_C len m).outA i ≤ 2048) ∧
    (-2047 ≤ (extract_B_C len m).outB i ∧ (extract_B_C len m).outB i ≤ 2048) ∧
    (-2047 ≤ (extract_AB_C len m).outB i ∧ (extract_AB_C len m).outB i ≤ 2048) := by
  have hA := and_fff_le (m.inp i)
  have hB := and_fff_le (m.inp i >>> 20)
  rw [extract_A_C_eq, extract_B_C_eq, extract_AB_C_eq, gen_result_outA _ _ _ _ _ h,
    gen_result_outA _ _ _ _ _ h, gen_result_outB _ _ _ _ _ h, gen_result_outB _ _ _ _ _ h,
    sample_unpadded _ hA, sample_unpadded _ hB]
  omega

/-- Witness of C1 on the words `0xFFF00FFF, 0x00003000, 0xABCDEF12`, index 0. -/
theorem unpadded_sample_correct_witness :
    (0 < 3) ∧ (extract_AB_C 3 mem_example).outA 0 = -2047 ∧
      (extract_AB_C 3 mem_example).outB 0 = -2047 :=
  ⟨by decide, (unpadded_sample_correct 3 mem_example 0 (by decide)).1.2.1,
    (unpadded_sample_correct 3 mem_example 0 (by decide)).1.2.2.2⟩

/-- C2: for each of the six scalar kernels, every block and every `i < len`, the kernel
stores `(in[i] >> 12) & 0xFF` in `aux[i]`. -/
theorem aux_correct (k : ScalarKernel) (len : Nat) (m : Mem) (i : Nat) (h : i < len) :
    (k.run len m).aux i = (m.inp i >>> 12) &&& 0xFF := by
  cases k <;> exact run_aux _ len m i h

/-- Witness of C2: `extract_B_p_C` on the word `0xABCDEF12` stores the AUX byte `0xDE`. -/
theorem aux_correct_witness :
    (2 < 3) ∧ (ScalarKernel.B_p_C.run 3 mem_example).aux 2 = 0xDE :=
  ⟨by decide, aux_correct .B_p_C 3 mem_example 2 (by decide)⟩

theorem gen_result_clip0 (b p : Bool) (len : Nat) (m : Mem) (h : m.clip 0 < 2 ^ 64) :
    (gen_result true b p len 0 m).clip 0 =
      (m.clip 0 + ((List.range len).filter (fun i => (m.inp i).testBit 12)).length) % 2 ^ 64 := by
  simp only [gen_result, and_self, if_true]
  rw [clip_acc_eq 12 m.inp len 0 (m.clip 0) h, clip_count_eq_filter, List.range_eq_range']
  rfl

theorem gen_result_clip1 (a p : Bool) (len : Nat) (m : Mem) (h : m.clip 1 < 2 ^ 64) :
    (gen_result a true p len 0 m).clip 1 =
      (m.clip 1 + ((List.range len).filter (fun i => (m.inp i).testBit 13)).length) % 2 ^ 64 := by
  simp only [gen_result, and_self, if_true, one_ne_zero, false_and, if_false]
  rw [clip_acc_eq 13 m.inp len 0 (m.clip 1) h, clip_count_eq_filter, List.range_eq_range']
  rfl

theorem filter_range_length_le (len : Nat) (q : Nat → Bool) :
    ((List.range len).filter q).length ≤ len := by
  calc ((List.range len).filter q).length ≤ (List.range len).length := List.length_filter_le _ _
    _ = len := List.length_range _

/-- C3: starting from counters that are `size_t` values, a kernel that counts channel A
leaves in `clip[0]` the initial value plus the number of indices `i < len` whose word has
bit 12 set, and a kernel that counts channel B leaves in `clip[1]` the initial value plus
the number of indices whose word has bit 13 set, both modulo 2^64; from a zero counter and
a `size_t` length the counter is exactly that number. -/
theorem clip_accounting (len : Nat) (m : Mem)
    (h0 : m.clip 0 < 2 ^ 64) (h1 : m.clip 1 < 2 ^ 64) :
    (∀ k : ScalarKernel, k ∈ [.A_C, .AB_C, .A_p_C, .AB_p_C] →
      (k.run len m).clip 0 =
        (m.clip 0 + ((List.range len).filter (fun i => (m.inp i).testBit 12)).length)
          % 2 ^ 64) ∧
    (∀ k : ScalarKernel, k ∈ [.B_C, .AB_C, .B_p_C, .AB_p_C] →
      (k.run len m).clip 1 =
        (m.clip 1 + ((List.range len).filter (fun i => (m.inp i).testBit 13)).length)
          % 2 ^ 64) ∧
    (len < 2 ^ 64 → m.clip 0 = 0 → ∀ k : ScalarKernel, k ∈ [.A_C, .AB_C, .A_p_C, .AB_p_C] →
      (k.run len m).clip 0 =
        ((List.range len).filter (fun i => (m.inp i).testBit 12)).length) ∧
    (len < 2 ^ 64 → m.clip 1 = 0 → ∀ k : ScalarKernel, k ∈ [.B_C, .AB_C, .B_p_C, .AB_p_C] →
      (k.run len m).clip 1 =
        ((List.range len).filter (fun i => (m.inp i).testBit 13)).length) := by
  have hA : ∀ k : ScalarKernel, k ∈ [.A_C, .AB_C, .A_p_C, .AB_p_C] →
      (k.run len m).clip 0 =
        (m.clip 0 + ((List.range len).filter (fun i => (m.inp i).testBit 12)).length)
          % 2 ^ 64 := by
    intro k hk
    rw [run_eq]
    simp only [List.mem_cons, List.mem_singleton, List.not_mem_nil, or_false] at hk
    rcases hk with rfl | rfl | rfl | rfl <;> exact gen_result_clip0 _ _ len m h0
  have hB : ∀ k : ScalarKernel, k ∈ [.B_C, .AB_C, .B_p_C, .AB_p_C] →
      (k.run len m).clip 1 =
        (m.clip 1 + ((List.range len).filter (fun i => (m.inp i).testBit 13)).length)
          % 2 ^ 64 := by
    intro k hk
    rw [run_eq]
    simp only [List.mem_cons, List.mem_singleton, List.not_mem_nil, or_false] at hk
    rcases hk with rfl | rfl | rfl | rfl <;> exact gen_result_clip1 _ _ len m h1
  refine ⟨hA, hB, ?_, ?_⟩
  · intro hlen hz k hk
    have hle := filter_range_length_le len (fun i => (m.inp i).testBit 12)
    rw [hA k hk, hz, Nat.zero_add]
    exact Nat.mod_eq_of_lt (by omega)
  · intro hlen hz k hk
    have hle := filter_range_length_le len (fun i => (m.inp i).testBit 13)
    rw [hB k hk, hz, Nat.zero_add]
    exact Nat.mod_eq_of_lt (by omega)

/-- Witness of C3: on `0xFFF00FFF, 0x00003000, 0xABCDEF12` from zero counters,
`extract_AB_C` counts one word with bit 12 set and two with bit 13 set. -/
theorem clip_accounting_witness :
    (extract_AB_C 3 mem_example).clip 0 = 1 ∧ (extract_AB_C 3 mem_example).clip 1 = 2 :=
  ⟨(clip_accounting 3 mem_example (by decide) (by decide)).2.2.1 (by decide) rfl
      .AB_C (by decide),
    (clip_accounting 3 mem_example (by decide) (by decide)).2.2.2 (by decide) rfl
      .AB_C (by decide)⟩

theorem padded_value_facts (raw : Nat) (h : raw ≤ 4095) (v : Int)
    (hv : v = sample true raw) :
    v = (16 * (2048 - (raw : Int)) + 32768) % 65536 - 32768 ∧ v % 16 = 0 ∧
      (v % 65536).toNat &&& 0xF = 0 := by
  rw [sample_padded raw h] at hv
  refine ⟨hv, by omega, ?_⟩
  have h4 := Nat.and_pow_two_sub_one_eq_mod (v % 65536).toNat 4
  norm_num at h4
  rw [h4]
  omega

/-- C4: for every block and every `i < len`, the sample a padded kernel stores is
`16 * (2048 - raw)` reduced modulo 2^16 into the signed 16-bit range, its low four bits are
zero (as an integer multiple of 16 and as a 16-bit pattern), for `raw` the 12-bit field of
the channel. -/
theorem padded_sample_correct (len : Nat) (m : Mem) (i : Nat) (h : i < len) :
    (∀ v ∈ [(extract_A_p_C len m).outA i, (extract_AB_p_C len m).outA i],
      v = (16 * (2048 - ((m.inp i &&& 0xFFF : Nat) : Int)) + 32768) % 65536 - 32768 ∧
      v % 16 = 0 ∧ (v % 65536).toNat &&& 0xF = 0) ∧
    (∀ v ∈ [(extract_B_p_C len m).outB i, (extract_AB_p_C len m).outB i],
      v = (16 * (2048 - (((m.inp i >>> 20) &&& 0xFFF : Nat) : Int)) + 32768) % 65536 - 32768 ∧
      v % 16 = 0 ∧ (v % 65536).toNat &&& 0xF = 0) := by
  constructor
  · intro v hv
    apply padded_value_facts _ (and_fff_le (m.inp i))
    simp only [List.mem_cons, List.mem_singleton, List.not_mem_nil, or_false] at hv
    rcases hv with rfl | rfl
    · rw [extract_A_p_C_eq, gen_result_outA _ _ _ _ _ h]
    · rw [extract_AB_p_C_eq, gen_result_outA _ _ _ _ _ h]
  · intro v hv
    apply padded_value_facts _ (and_fff_le (m.inp i >>> 20))
    simp only [List.mem_cons, List.mem_singleton, List.not_mem_nil, or_false] at hv
    rcases hv with rfl | rfl
    · rw [extract_B_p_C_eq, gen_result_outB _ _ _ _ _ h]
    · rw [extract_AB_p_C_eq, gen_result_outB _ _ _ _ _ h]

/-- Witness of C4: the word `0xFFF00FFF` gives A = B = -32752, the pattern `0x8010`. -/
theorem padded_sample_correct_witness :
    (0 < 3) ∧ (extract_AB_p_C 3 mem_example).outA 0 = -32752 ∧
      (extract_AB_p_C 3 mem_example).outB 0 = -32752 ∧
      ((extract_AB_p_C 3 mem_example).outA 0 % 65536).toNat = 0x8010 :=
  ⟨by decide,
    ((padded_sample_correct 3 mem_example 0 (by decide)).1 _ (by simp)).1,
    ((padded_sample_correct 3 mem_example 0 (by decide)).2 _ (by simp)).1,
    by decide⟩

/-- C5, as the code has it: every unpadded sample lies in [-2047, 2048]; when the raw
field of the channel is not zero, 16 times the unpadded sample lies in [-32752, 32752],
inside the signed 16-bit range, and the padded kernel stores exactly 16 times the sample of
the unpadded kernel, with the same sign. -/
theorem pad_shift_exact (len : Nat) (m : Mem) (i : Nat) (h : i < len) :
    (-2047 ≤ (extract_A_C len m).outA i ∧ (extract_A_C len m).outA i ≤ 2048) ∧
    (-2047 ≤ (extract_B_C len m).outB i ∧ (extract_B_C len m).outB i ≤ 2048) ∧
    (m.inp i &&& 0xFFF ≠ 0 →
      (-32752 ≤ 16 * (extract_A_C len m).outA i ∧ 16 * (extract_A_C len m).outA i ≤ 32752) ∧
      (extract_A_p_C len m).outA i = 16 * (extract_A_C len m).outA i ∧
      (extract_AB_p_C len m).outA i = 16 * (extract_AB_C len m).outA i ∧
      Int.sign ((extract_A_p_C len m).outA i) = Int.sign ((extract_A_C len m).outA i)) ∧
    ((m.inp i >>> 20) &&& 0xFFF ≠ 0 →
      (-32752 ≤ 16 * (extract_B_C len m).outB i ∧ 16 * (extract_B_C len m).outB i ≤ 32752) ∧
      (extract_B_p_C len m).outB i = 16 * (extract_B_C len m).outB i ∧
      (extract_AB_p_C len m).outB i = 16 * (extract_AB_C len m).outB i ∧
      Int.sign ((extract_B_p_C len m).outB i) = Int.sign ((extract_B_C len m).outB i)) := by
  have hA := and_fff_le (m.inp i)
  have hB := and_fff_le (m.inp i >>> 20)
  have sign16 : ∀ x : Int, Int.sign (16 * x) = Int.sign x := by
    intro x
    have h16 : Int.sign 16 = 1 := rfl
    rw [Int.sign_mul, h16, one_mul]
  rw [extract_A_C_eq, extract_B_C_eq, extract_AB_C_eq, extract_A_p_C_eq, extract_B_p_C_eq,
    extract_AB_p_C_eq]
  simp only [gen_result_outA _ _ _ _ _ h, gen_result_outB _ _ _ _ _ h,
    sample_unpadded _ hA, sample_unpadded _ hB, sample_padded_cases _ hA,
    sample_padded_cases _ hB]
  refine ⟨by omega, by omega, ?_, ?_⟩
  · intro hne
    rw [if_neg hne]
    exact ⟨by omega, rfl, rfl, sign16 _⟩
  · intro hne
    rw [if_neg hne]
    exact ⟨by omega, rfl, rfl, sign16 _⟩

/-- Witness of C5 as amended, on the word `0xFFF00FFF` (both raw fields 4095). -/
theorem pad_shift_exact_witness :
    (0 < 3) ∧ (0xFFF00FFF &&& 0xFFF ≠ 0) ∧
      (extract_A_p_C 3 mem_example).outA 0 = 16 * (extract_A_C 3 mem_example).outA 0 :=
  ⟨by decide, by decide,
    ((pad_shift_exact 3 mem_example 0 (by decide)).2.2.1 (by decide)).2.1⟩

/-- C5 fails as stated at the word `0x00000000`: the unpadded sample 2048 is outside
[-2048, 2047], 16 times it is outside the signed 16-bit range, and the padded kernel
stores -32768, which is not 16 times 2048 and has the opposite sign. -/
theorem pad_shift_overflow_at_zero :
    (extract_A_C 1 mem_zero).outA 0 = 2048 ∧
    ¬ ((extract_A_C 1 mem_zero).outA 0 ≤ 2047) ∧
    ¬ (16 * (extract_A_C 1 mem_zero).outA 0 ≤ 32767) ∧
    (extract_A_p_C 1 mem_zero).outA 0 = -32768 ∧
    (extract_A_p_C 1 mem_zero).outA 0 ≠ 16 * (extract_A_C 1 mem_zero).outA 0 ∧
    Int.sign ((extract_A_p_C 1 mem_zero).outA 0) ≠ Int.sign ((extract_A_C 1 mem_zero).outA 0) := by
  decide

/-! ## Splitting a block, and the frame of each variant -/

theorem clip_acc_add (bit : Nat) (inp : Nat → Nat) (n1 n2 : Nat) :
    ∀ (i c : Nat), clip_acc bit inp (n1 + n2) i c =
      clip_acc bit inp n2 (i + n1) (clip_acc bit inp n1 i c) := by
  induction n1 with
  | zero => intro i c; simp [clip_acc]
  | succ n ih =>
    intro i c
    rw [Nat.add_right_comm, clip_acc, ih, clip_acc]
    congr 1
    omega

theorem clip_acc_shift (bit : Nat) (inp : Nat → Nat) (off n : Nat) :
    ∀ (i c : Nat), clip_acc bit (fun j => inp (off + j)) n i c =
      clip_acc bit inp n (off + i) c := by
  induction n with
  | zero => intro i c; rfl
  | succ n ih =>
    intro i c
    rw [clip_acc, ih, clip_acc]
    rfl

theorem gen_result_split (a b p : Bool) (n1 n2 : Nat) (m : Mem) :
    gen_result a b p (n1 + n2) 0 m =
      Mem.write_back n1 (gen_result a b p n1 0 m)
        (gen_result a b p n2 0 ((gen_result a b p n1 0 m).advance n1)) := by
  have hsub : ∀ k, ¬ k < n1 → n1 + (k - n1) = k := fun k hk => by omega
  ext k
  · simp only [gen_result, Mem.write_back, Mem.advance]
    split_ifs with h
    · rfl
    · rw [hsub k h]
  · simp only [gen_result, Mem.write_back, Mem.advance, clip_acc_add _ _ n1 n2,
      clip_acc_shift, Nat.zero_add, Nat.add_zero]
    by_cases hk0 : k = 0
    · subst hk0
      cases a <;> cases b <;> simp
    · by_cases hk1 : k = 1
      · subst hk1
        cases a <;> cases b <;> simp
      · simp [hk0, hk1]
  · simp only [gen_result, Mem.write_back, Mem.advance]
    split_ifs <;> first | omega | (rw [hsub k (by omega)])
  · cases a <;>
      simp only [gen_result, Mem.write_back, Mem.advance, Bool.false_eq_true, false_and,
        true_and, if_false]
    · split_ifs <;> first | omega | (rw [hsub k (by omega)])
    · split_ifs <;> first | omega | (rw [hsub k (by omega)])
  · cases b <;>
      simp only [gen_result, Mem.write_back, Mem.advance, Bool.false_eq_true, false_and,
        true_and, if_false]
    · split_ifs <;> first | omega | (rw [hsub k (by omega)])
    · split_ifs <;> first | omega | (rw [hsub k (by omega)])

/-- C9: for every scalar kernel, every block lengths `n1`, `n2` and every initial memory,
one call on `n1 + n2` words leaves the same memory (samples, AUX bytes, counters) as a call
on the first `n1` words followed by a call on the next `n2` words made through the input
and output pointers advanced by `n1`. -/
theorem length_linearity (k : ScalarKernel) (n1 n2 : Nat) (m : Mem) :
    k.run (n1 + n2) m = run_advanced k.run n1 n2 (k.run n1 m) := by
  unfold run_advanced
  rw [run_eq, run_eq k n1, run_eq k n2]
  exact gen_result_split _ _ _ n1 n2 m

/-- C10: `extract_A_C` and `extract_A_p_C` leave `outB` and `clip[1]` as they were,
`extract_B_C` and `extract_B_p_C` leave `outA` and `clip[0]` as they were, and no kernel
changes the input block. -/
theorem variant_frame (len : Nat) (m : Mem) :
    ((extract_A_C len m).outB = m.outB ∧ (extract_A_C len m).clip 1 = m.clip 1) ∧
    ((extract_A_p_C len m).outB = m.outB ∧ (extract_A_p_C len m).clip 1 = m.clip 1) ∧
    ((extract_B_C len m).outA = m.outA ∧ (extract_B_C len m).clip 0 = m.clip 0) ∧
    ((extract_B_p_C len m).outA = m.outA ∧ (extract_B_p_C len m).clip 0 = m.clip 0) ∧
    (∀ k : ScalarKernel, (k.run len m).inp = m.inp) := by
  rw [extract_A_C_eq, extract_B_C_eq, extract_A_p_C_eq, extract_B_p_C_eq]
  refine ⟨⟨?_, ?_⟩, ⟨?_, ?_⟩, ⟨?_, ?_⟩, ⟨?_, ?_⟩, ?_⟩
  all_goals first
    | (intro k; rw [run_eq]; rfl)
    | (funext j; simp [gen_result])
    | simp [gen_result]

/-! ## Claims on the kernel selection -/

theorem run_outA (k : ScalarKernel) (hk : k.writes_A = true) (len : Nat) (m : Mem) (i : Nat)
    (h : i < len) : (k.run len m).outA i = sample k.padded (m.inp i &&& 0xFFF) := by
  rw [run_eq, hk]
  exact gen_result_outA _ _ len m i h

theorem run_outB (k : ScalarKernel) (hk : k.writes_B = true) (len : Nat) (m : Mem) (i : Nat)
    (h : i < len) : (k.run len m).outB i = sample k.padded ((m.inp i >>> 20) &&& 0xFFF) := by
  rw [run_eq, hk]
  exact gen_result_outB _ _ len m i h

theorem sample_eq_spec (pad : Bool) (raw : Nat) (h : raw ≤ 4095) :
    sample pad raw = spec_sample pad raw := by
  cases pad
  · simpa [spec_sample] using sample_unpadded raw h
  · simpa [spec_sample] using sample_padded raw h

theorem conv_run_outA (f : ConvFunction) (hf : f.variant.writes_A = true) (len : Nat)
    (m : Mem) (i : Nat) (h : i < len) :
    (f.run len m).outA i = sample f.variant.padded (m.inp i &&& 0xFFF) := by
  cases f <;>
    first
      | exact run_outA _ hf len m i h
      | exact absurd hf (by decide)
      | (simp only [ConvFunction.run, vector_contract, h, and_self, if_true]
         exact (sample_eq_spec _ _ (and_fff_le _)).symm)

theorem conv_run_outB (f : ConvFunction) (hf : f.variant.writes_B = true) (len : Nat)
    (m : Mem) (i : Nat) (h : i < len) :
    (f.run len m).outB i = sample f.variant.padded ((m.inp i >>> 20) &&& 0xFFF) := by
  cases f <;>
    first
      | exact run_outB _ hf len m i h
      | exact absurd hf (by decide)
      | (simp only [ConvFunction.run, vector_contract, h, and_self, if_true]
         exact (sample_eq_spec _ _ (and_fff_le _)).symm)

theorem conv_run_aux (f : ConvFunction) (len : Nat) (m : Mem) (i : Nat) (h : i < len) :
    (f.run len m).aux i = (m.inp i >>> 12) &&& 0xFF := by
  cases f
  · exact run_aux .A_C len m i h
  · exact run_aux .B_C len m i h
  · exact run_aux .AB_C len m i h
  · exact run_aux .A_p_C len m i h
  · exact run_aux .B_p_C len m i h
  · exact run_aux .AB_p_C len m i h
  all_goals simp only [ConvFunction.run, vector_contract, h, if_true]

theorem select_variant (x86_64 : Bool) (check_cpu_feat : Int) (pad : Bool)
    (o1 o2 : Option String) :
    (select_conv_function x86_64 check_cpu_feat pad o1 o2).variant.padded = pad ∧
    ((select_conv_function x86_64 check_cpu_feat pad o1 o2).is_scalar
      = !(x86_64 && check_cpu_feat == 0)) ∧
    (o1.isSome = true →
      (select_conv_function x86_64 check_cpu_feat pad o1 o2).variant.writes_A = true) ∧
    (o2.isSome = true →
      (select_conv_function x86_64 check_cpu_feat pad o1 o2).variant.writes_B = true) ∧
    (o1.isSome = true ∨ o2.isSome = true →
      (select_conv_function x86_64 check_cpu_feat pad o1 o2).variant.writes_A = o1.isSome ∧
      (select_conv_function x86_64 check_cpu_feat pad o1 o2).variant.writes_B = o2.isSome) := by
  unfold select_conv_function
  cases o1 <;> cases o2 <;> cases pad <;> cases (x86_64 && check_cpu_feat == 0) <;>
    simp [ConvFunction.variant, ConvFunction.is_scalar, ScalarKernel.padded,
      ScalarKernel.writes_A, ScalarKernel.writes_B]

/-- C7: whenever at least one of the outputs A, B is requested, the selected kernel writes
exactly the requested ADC channels, pads exactly when the pad flag is set, and is a scalar
kernel exactly when the vector branch is not taken (no vector build, or a probe result
other than 0); and after the selected kernel has run on `len` words every requested ADC
buffer holds the sample of word `i` at each index `i < len`. -/
theorem dispatcher_table (x86_64 : Bool) (check_cpu_feat : Int) (pad : Bool)
    (output_name_1 output_name_2 : Option String)
    (h : output_name_1 ≠ none ∨ output_name_2 ≠ none) :
    ((select_conv_function x86_64 check_cpu_feat pad output_name_1 output_name_2).variant.writes_A
      = output_name_1.isSome) ∧
    ((select_conv_function x86_64 check_cpu_feat pad output_name_1 output_name_2).variant.writes_B
      = output_name_2.isSome) ∧
    ((select_conv_function x86_64 check_cpu_feat pad output_name_1 output_name_2).variant.padded
      = pad) ∧
    ((select_conv_function x86_64 check_cpu_feat pad output_name_1 output_name_2).is_scalar = true
      ↔ ¬ (x86_64 = true ∧ check_cpu_feat = 0)) ∧
    (∀ (len : Nat) (m : Mem) (i : Nat), i < len →
      (output_name_1 ≠ none →
        ((select_conv_function x86_64 check_cpu_feat pad output_name_1 output_name_2).run
          len m).outA i = sample pad (m.inp i &&& 0xFFF)) ∧
      (output_name_2 ≠ none →
        ((select_conv_function x86_64 check_cpu_feat pad output_name_1 output_name_2).run
          len m).outB i = sample pad ((m.inp i >>> 20) &&& 0xFFF))) := by
  obtain ⟨hp, hs, hA, hB, hAB⟩ := select_variant x86_64 check_cpu_feat pad output_name_1
    output_name_2
  have hsome : output_name_1.isSome = true ∨ output_name_2.isSome = true := by
    rcases h with h | h
    · exact Or.inl (Option.isSome_iff_ne_none.mpr h)
    · exact Or.inr (Option.isSome_iff_ne_none.mpr h)
  refine ⟨(hAB hsome).1, (hAB hsome).2, hp, ?_, ?_⟩
  · rw [hs]
    cases x86_64 <;> simp
  · intro len m i hi
    constructor
    · intro h1
      have := conv_run_outA _ (hA (Option.isSome_iff_ne_none.mpr h1)) len m i hi
      rw [hp] at this
      exact this
    · intro h2
      have := conv_run_outB _ (hB (Option.isSome_iff_ne_none.mpr h2)) len m i hi
      rw [hp] at this
      exact this

/-- Witness of C7: output A alone, no pad, vector branch not taken. -/
theorem dispatcher_table_witness :
    select_conv_function true 1 false (some "a.s16") none = .extract_A_C ∧
    ((select_conv_function true 1 false (some "a.s16") none).is_scalar = true
      ↔ ¬ ((true = true) ∧ (1 : Int) = 0)) :=
  ⟨by decide,
    (dispatcher_table true 1 false (some "a.s16") none (Or.inl (by simp))).2.2.2.1⟩

/-- C8, as the code has it: with neither ADC output requested the B-only kernel of the pad
flag and of the branch taken is selected. -/
theorem aux_only_dispatch (x86_64 : Bool) (check_cpu_feat : Int) (pad : Bool) :
    select_conv_function x86_64 check_cpu_feat pad none none =
      (if x86_64 = true ∧ check_cpu_feat = 0 then
        (if pad then .extract_B_p_sse else .extract_B_sse)
      else
        (if pad then .extract_B_p_C else .extract_B_C)) ∧
    (select_conv_function x86_64 check_cpu_feat pad none none).variant =
      (if pad then .B_p_C else .B_C) := by
  unfold select_conv_function
  cases pad <;> cases x86_64 <;> by_cases hc : check_cpu_feat = 0 <;>
    simp [hc, ConvFunction.variant]

/-- C8 fails as stated: with only AUX configured, no pad and the scalar branch, the
selected kernel is `extract_B_C`, which is neither `extract_A_C` nor an A-only variant. -/
theorem aux_only_not_A_kernel :
    select_conv_function false 1 false none none = .extract_B_C ∧
    select_conv_function false 1 false none none ≠ .extract_A_C ∧
    (select_conv_function false 1 false none none).variant.writes_A = false ∧
    select_conv_function true 0 true none none = .extract_B_p_sse := by
  decide

/-! ## Claims on the streaming loop -/

theorem nb_block_exact (n : Nat) (h : n ≤ BUFFER_SIZE) :
    to_int32 (n : Int) = (n : Int) ∧ int_to_size_t (to_int32 (n : Int)) = n := by
  have h1 : to_int32 (n : Int) = (n : Int) := by
    unfold to_int32
    unfold BUFFER_SIZE at h
    omega
  refine ⟨h1, ?_⟩
  rw [h1]
  unfold int_to_size_t SIZE_T_MOD
  unfold BUFFER_SIZE at h
  norm_num
  omega

theorem map_range_fread {α : Type} (ws : List Nat) (buf : Nat → Nat) (g : Nat → α)
    (out : Nat → α) (hout : ∀ i, i < ws.length → out i = g (fread_store ws buf i)) :
    (List.range ws.length).map out = ws.map g := by
  apply List.ext_getElem (by simp)
  intro n h1 h2
  have hn : n < ws.length := by simpa using h2
  simp only [List.getElem_map, List.getElem_range]
  rw [hout n hn]
  simp [fread_store, hn, List.getD_eq_getElem]

theorem loop_body_appended (f : ConvFunction) (cfg : Config) (r : ReadResult)
    (s : DriverState) (hlen : r.words.length ≤ BUFFER_SIZE)
    (hA : cfg.output_name_1.isSome = true → f.variant.writes_A = true)
    (hB : cfg.output_name_2.isSome = true → f.variant.writes_B = true) :
    Appended cfg f.variant.padded s (loop_body f.run cfg r s) [r.words] := by
  obtain ⟨hnb, hsz⟩ := nb_block_exact r.words.length hlen
  have h1 : cfg.output_name_1.isSome = true →
      (List.range r.words.length).map (f.run r.words.length
        { inp := fread_store r.words s.buf_tmp, clip := s.clip, aux := s.buf_aux,
          outA := s.buf_1, outB := s.buf_2 }).outA
        = r.words.map (fun w => sample f.variant.padded (w &&& 0xFFF)) := fun h =>
    map_range_fread r.words s.buf_tmp _ _ (fun i hi => conv_run_outA _ (hA h) _ _ i hi)
  have h2 : cfg.output_name_2.isSome = true →
      (List.range r.words.length).map (f.run r.words.length
        { inp := fread_store r.words s.buf_tmp, clip := s.clip, aux := s.buf_aux,
          outA := s.buf_1, outB := s.buf_2 }).outB
        = r.words.map (fun w => sample f.variant.padded ((w >>> 20) &&& 0xFFF)) := fun h =>
    map_range_fread r.words s.buf_tmp _ _ (fun i hi => conv_run_outB _ (hB h) _ _ i hi)
  have h3 : (List.range r.words.length).map (f.run r.words.length
        { inp := fread_store r.words s.buf_tmp, clip := s.clip, aux := s.buf_aux,
          outA := s.buf_1, outB := s.buf_2 }).aux
        = r.words.map (fun w => (w >>> 12) &&& 0xFF) :=
    map_range_fread r.words s.buf_tmp _ _ (fun i hi => conv_run_aux _ _ _ i hi)
  rw [hnb] at hsz
  simp only [Appended, loop_body, hnb, hsz, List.map_cons, List.map_nil]
  refine ⟨?_, ?_, ?_, trivial⟩
  · by_cases h : cfg.output_name_1.isSome = true
    · rw [if_pos h, if_pos h, h1 h]
    · rw [if_neg h, if_neg h]
  · by_cases h : cfg.output_name_2.isSome = true
    · rw [if_pos h, if_pos h, h2 h]
    · rw [if_neg h, if_neg h]
  · by_cases h : cfg.output_name_aux.isSome = true
    · rw [if_pos h, if_pos h, h3]
    · rw [if_neg h, if_neg h]

theorem Appended.trans {cfg : Config} {pad : Bool} {s t u : DriverState}
    {b1 b2 : List (List Nat)} (h1 : Appended cfg pad s t b1) (h2 : Appended cfg pad t u b2) :
    Appended cfg pad s u (b1 ++ b2) := by
  obtain ⟨a1, a2, a3, a4⟩ := h1
  obtain ⟨c1, c2, c3, c4⟩ := h2
  refine ⟨?_, ?_, ?_, ?_⟩
  · rw [c1, a1]; split_ifs <;> simp
  · rw [c2, a2]; split_ifs <;> simp
  · rw [c3, a3]; split_ifs <;> simp
  · rw [c4, a4]; simp

theorem main_loop_appended (f : ConvFunction) (cfg : Config) (short_last : Bool)
    (hA : cfg.output_name_1.isSome = true → f.variant.writes_A = true)
    (hB : cfg.output_name_2.isSome = true → f.variant.writes_B = true) :
    ∀ (chunks : List (List Nat)) (s : DriverState),
      (∀ c ∈ chunks, c.length ≤ BUFFER_SIZE) →
      Appended cfg f.variant.padded s (main_loop f.run cfg (clean_reads chunks short_last) s)
        (performed_reads chunks short_last)
  | [], s, _ => by
    have h0 : ([] : List Nat).length ≤ BUFFER_SIZE := Nat.zero_le _
    exact loop_body_appended f cfg { words := [], eof := true } s h0 hA hB
  | [c], s, hsz => by
    have hc : c.length ≤ BUFFER_SIZE := hsz c (by simp)
    have h1 := loop_body_appended f cfg { words := c, eof := short_last } s hc hA hB
    cases short_last
    · have h0 : ([] : List Nat).length ≤ BUFFER_SIZE := Nat.zero_le _
      have h2 := loop_body_appended f cfg { words := [], eof := true }
        (loop_body f.run cfg { words := c, eof := false } s) h0 hA hB
      simpa [clean_reads, main_loop, performed_reads] using h1.trans h2
    · simpa [clean_reads, main_loop, performed_reads] using h1
  | c :: d :: cs, s, hsz => by
    have hc : c.length ≤ BUFFER_SIZE := hsz c (by simp)
    have h1 := loop_body_appended f cfg { words := c, eof := false } s hc hA hB
    have h2 := main_loop_appended f cfg short_last hA hB (d :: cs)
      (loop_body f.run cfg { words := c, eof := false } s)
      (fun x hx => hsz x (List.mem_cons_of_mem _ hx))
    simpa [clean_reads, main_loop, performed_reads] using h1.trans h2

theorem performed_reads_flatten (short_last : Bool) :
    ∀ chunks : List (List Nat), (performed_reads chunks short_last).flatten = chunks.flatten
  | [] => rfl
  | [c] => by cases short_last <;> simp [performed_reads]
  | c :: d :: cs => by
    simp [performed_reads, performed_reads_flatten short_last (d :: cs)]

theorem sample_fun_eq (pad : Bool) :
    (fun w : Nat => sample pad (w &&& 0xFFF)) = (fun w => spec_sample pad (w &&& 0xFFF)) ∧
    (fun w : Nat => sample pad ((w >>> 20) &&& 0xFFF))
      = (fun w => spec_sample pad ((w >>> 20) &&& 0xFFF)) :=
  ⟨funext fun w => sample_eq_spec pad _ (and_fff_le w),
    funext fun w => sample_eq_spec pad _ (and_fff_le (w >>> 20))⟩

theorem appended_from_empty {α : Type} (g : Nat → α) (blocks chunks : List (List Nat))
    (hfl : blocks.flatten = chunks.flatten) (out : List (List α)) (ret : List Int)
    (hout : out = [] ++ blocks.map (List.map g))
    (hret : ret = [] ++ blocks.map (fun b => (b.length : Int))) :
    out.flatten = chunks.flatten.map g ∧ out.map (fun l => (l.length : Int)) = ret := by
  subst hout hret
  constructor
  · rw [List.nil_append, ← List.map_flatten, hfl]
  · simp [Function.comp_def]

/-- C6: for an accepted configuration and an input delivered by reads of 1 to
`BUFFER_SIZE` words followed by the end of the input (signalled with the last block or by
a final empty read), the run reaches a final state where, for each selected output, the
writes concatenated are the encoding of all input words in order (`2048 - raw`, padded when
the flag is set, for A and B; `(w >> 12) & 0xFF` for AUX) and the element counts of the
writes are the values returned by the successive reads; an output that is not selected
receives no write at all. -/
theorem driver_output (x86_64 : Bool) (check_cpu_feat : Int) (cfg : Config)
    (chunks : List (List Nat)) (short_last : Bool)
    (buf_tmp : Nat → Nat) (buf_1 buf_2 : Nat → Int) (buf_aux : Nat → Nat)
    (hin : cfg.input_name_1 ≠ none)
    (hsel : ¬ (cfg.output_name_1 ≠ none ∧ cfg.output_name_2 ≠ none ∧
      cfg.output_name_aux ≠ none))
    (hsz : ∀ c ∈ chunks, 1 ≤ c.length ∧ c.length ≤ BUFFER_SIZE) :
    ∃ s : DriverState,
      main_run x86_64 check_cpu_feat cfg (clean_reads chunks short_last)
        (initial_state buf_tmp buf_1 buf_2 buf_aux) = some s ∧
      (cfg.output_name_1 ≠ none →
        s.output_1.flatten = chunks.flatten.map (fun w => spec_sample cfg.pad (w &&& 0xFFF)) ∧
        s.output_1.map (fun l => (l.length : Int)) = s.fread_returns) ∧
      (cfg.output_name_2 ≠ none →
        s.output_2.flatten
          = chunks.flatten.map (fun w => spec_sample cfg.pad ((w >>> 20) &&& 0xFFF)) ∧
        s.output_2.map (fun l => (l.length : Int)) = s.fread_returns) ∧
      (cfg.output_name_aux ≠ none →
        s.output_aux.flatten = chunks.flatten.map (fun w => (w >>> 12) &&& 0xFF) ∧
        s.output_aux.map (fun l => (l.length : Int)) = s.fread_returns) ∧
      (cfg.output_name_1 = none → s.output_1 = []) ∧
      (cfg.output_name_2 = none → s.output_2 = []) ∧
      (cfg.output_name_aux = none → s.output_aux = []) := by
  have husage : usage_called cfg = false := by
    unfold usage_called
    cases h0 : cfg.input_name_1 with
    | none => exact absurd h0 hin
    | some _ =>
      cases h1 : cfg.output_name_1 <;> cases h2 : cfg.output_name_2 <;>
        cases h3 : cfg.output_name_aux <;> simp_all
  have hinp : cfg.input_name_1.isSome = true := Option.isSome_iff_ne_none.mpr hin
  by_cases hany : (cfg.output_name_1.isSome || cfg.output_name_2.isSome ||
      cfg.output_name_aux.isSome) = true
  · obtain ⟨hp, -, hA, hB, -⟩ := select_variant x86_64 check_cpu_feat cfg.pad
      cfg.output_name_1 cfg.output_name_2
    have happ := main_loop_appended
      (select_conv_function x86_64 check_cpu_feat cfg.pad cfg.output_name_1 cfg.output_name_2)
      cfg short_last hA hB chunks (initial_state buf_tmp buf_1 buf_2 buf_aux)
      (fun c hc => (hsz c hc).2)
    rw [hp] at happ
    obtain ⟨a1, a2, a3, a4⟩ := happ
    have hfl := performed_reads_flatten short_last chunks
    obtain ⟨e1, e2⟩ := sample_fun_eq cfg.pad
    refine ⟨main_loop (select_conv_function x86_64 check_cpu_feat cfg.pad cfg.output_name_1
      cfg.output_name_2).run cfg (clean_reads chunks short_last)
      (initial_state buf_tmp buf_1 buf_2 buf_aux), by simp only [main_run, husage, hinp, hany,
      Bool.and_self, if_true, Bool.false_eq_true, if_false], ?_, ?_, ?_, ?_, ?_, ?_⟩
    · intro h
      rw [if_pos (Option.isSome_iff_ne_none.mpr h), e1] at a1
      exact appended_from_empty _ _ chunks hfl _ _ a1 a4
    · intro h
      rw [if_pos (Option.isSome_iff_ne_none.mpr h), e2] at a2
      exact appended_from_empty _ _ chunks hfl _ _ a2 a4
    · intro h
      rw [if_pos (Option.isSome_iff_ne_none.mpr h)] at a3
      exact appended_from_empty _ _ chunks hfl _ _ a3 a4
    · intro h
      rw [a1, h]
      rfl
    · intro h
      rw [a2, h]
      rfl
    · intro h
      rw [a3, h]
      rfl
  · have hnone : cfg.output_name_1 = none ∧ cfg.output_name_2 = none ∧
        cfg.output_name_aux = none := by
      cases h1 : cfg.output_name_1 <;> cases h2 : cfg.output_name_2 <;>
        cases h3 : cfg.output_name_aux <;> simp_all
    refine ⟨initial_state buf_tmp buf_1 buf_2 buf_aux, by simp only [main_run, husage, hany,
      Bool.and_false, Bool.false_eq_true, if_false], ?_, ?_, ?_, ?_, ?_, ?_⟩
    · exact fun h => absurd hnone.1 h
    · exact fun h => absurd hnone.2.1 h
    · exact fun h => absurd hnone.2.2 h
    · exact fun _ => rfl
    · exact fun _ => rfl
    · exact fun _ => rfl

/-- Witness of C6: three words read as a block of two and a short block of one, outputs A
and B selected: three A samples, three B samples, no AUX byte. -/
theorem driver_output_witness :
    ∃ s : DriverState,
      main_run false 1 (cfg_example true true false false)
        (clean_reads [[0xFFF00FFF, 0x00003000], [0xABCDEF12]] true) state_example = some s ∧
      s.output_1.flatten = [-2047, 2048, 2048 - 0xF12] ∧
      s.output_2.flatten = [-2047, 2048, 2048 - 0xABC] ∧
      s.output_aux = [] := by
  obtain ⟨s, hs, h1, h2, -, -, -, h6⟩ := driver_output false 1
    (cfg_example true true false false) [[0xFFF00FFF, 0x00003000], [0xABCDEF12]] true
    (fun _ => 0) (fun _ => 0) (fun _ => 0) (fun _ => 0)
    (by simp [cfg_example]) (by simp [cfg_example]) (by simp [BUFFER_SIZE])
  exact ⟨s, hs, (h1 (by simp [cfg_example])).1, (h2 (by simp [cfg_example])).1, h6 rfl⟩

/-- The AUX-only scenario: on the single word `0xABCDEF12`, followed by the empty read that
ends the input, the loop writes the byte `0xDE` to the AUX output and nothing to A or B;
the B-only kernel it runs reports the set bit 13. -/
theorem aux_only_scenario :
    (main_run false 1 (cfg_example false false true false)
      (clean_reads [[0xABCDEF12]] false) state_example).map
        (fun s => (s.output_1, s.output_2, s.output_aux, s.fread_returns, s.stderr)) =
      some ([], [], [[0xDE], []], [1, 0], [Diag.clipped_B 1]) := by
  rfl

/-! ## Further claims on the kernels -/

/-- C11: for each of the six scalar kernels and any contents of the buffers and counters,
a call with `len = 0` returns the memory it was given: `aux`, `outA`, `outB` and both
counters are as they were. -/
theorem noop_on_empty (k : ScalarKernel) (m : Mem) :
    k.run 0 m = m ∧ (k.run 0 m).aux = m.aux ∧ (k.run 0 m).outA = m.outA ∧
      (k.run 0 m).outB = m.outB ∧ (k.run 0 m).clip 0 = m.clip 0 ∧
      (k.run 0 m).clip 1 = m.clip 1 := by
  have h : k.run 0 m = m := by cases k <;> rfl
  rw [h]
  exact ⟨rfl, rfl, rfl, rfl, rfl, rfl⟩

theorem aux_low_bits (x : Nat) :
    ((x >>> 12) &&& 0xFF) &&& 1 = (x >>> 12) &&& 1 ∧
    (((x >>> 12) &&& 0xFF) >>> 1) &&& 1 = (x >>> 13) &&& 1 := by
  constructor
  · rw [Nat.and_assoc]
    rfl
  · rw [and_shiftRight, Nat.and_assoc, ← Nat.shiftRight_add]
    rfl

theorem aux_testBit (x : Nat) :
    ((x >>> 12) &&& 0xFF).testBit 0 = x.testBit 12 ∧
    ((x >>> 12) &&& 0xFF).testBit 1 = x.testBit 13 := by
  have h0 : Nat.testBit 0xFF 0 = true := by decide
  have h1 : Nat.testBit 0xFF 1 = true := by decide
  constructor
  · rw [Nat.testBit_and, Nat.testBit_shiftRight, h0, Bool.and_true]
  · rw [Nat.testBit_and, Nat.testBit_shiftRight, h1, Bool.and_true]

theorem filter_aux_bits (k : ScalarKernel) (len : Nat) (m : Mem) :
    (List.range len).filter (fun j => ((k.run len m).aux j).testBit 0)
      = (List.range len).filter (fun j => (m.inp j).testBit 12) ∧
    (List.range len).filter (fun j => ((k.run len m).aux j).testBit 1)
      = (List.range len).filter (fun j => (m.inp j).testBit 13) := by
  constructor
  · apply List.filter_congr
    intro j hj
    rw [run_aux k len m j (List.mem_range.mp hj), (aux_testBit _).1]
  · apply List.filter_congr
    intro j hj
    rw [run_aux k len m j (List.mem_range.mp hj), (aux_testBit _).2]

/-- C14: for every scalar kernel and every index `i < len`, bit 0 of the AUX byte stored
for word `i` is the amount `(in[i] >> 12) & 1` the A kernels add to `clip[0]` and bit 1 is
the amount `(in[i] >> 13) & 1` the B kernels add to `clip[1]`; and after an AB kernel run
from `size_t` counters, `clip[0]` and `clip[1]` have advanced (modulo 2^64) by the number
of AUX bytes of the block with bit 0 set and with bit 1 set. -/
theorem clip_bits_in_aux (len : Nat) (m : Mem)
    (h0 : m.clip 0 < 2 ^ 64) (h1 : m.clip 1 < 2 ^ 64) :
    (∀ k : ScalarKernel, ∀ i, i < len →
      ((k.run len m).aux i) &&& 1 = (m.inp i >>> 12) &&& 1 ∧
      ((k.run len m).aux i >>> 1) &&& 1 = (m.inp i >>> 13) &&& 1) ∧
    (∀ k : ScalarKernel, k ∈ [.AB_C, .AB_p_C] →
      (k.run len m).clip 0 =
        (m.clip 0 + ((List.range len).filter
          (fun j => ((k.run len m).aux j).testBit 0)).length) % 2 ^ 64 ∧
      (k.run len m).clip 1 =
        (m.clip 1 + ((List.range len).filter
          (fun j => ((k.run len m).aux j).testBit 1)).length) % 2 ^ 64) := by
  constructor
  · intro k i hi
    rw [run_aux k len m i hi]
    exact aux_low_bits (m.inp i)
  · intro k hk
    rw [(filter_aux_bits k len m).1, (filter_aux_bits k len m).2, run_eq]
    simp only [List.mem_cons, List.mem_singleton, List.not_mem_nil, or_false] at hk
    rcases hk with rfl | rfl
    · exact ⟨gen_result_clip0 _ _ len m h0, gen_result_clip1 _ _ len m h1⟩
    · exact ⟨gen_result_clip0 _ _ len m h0, gen_result_clip1 _ _ len m h1⟩

/-- Witness of C14 on `0xFFF00FFF, 0x00003000, 0xABCDEF12`: the AUX byte of the second
word has bits 0 and 1 set, and `extract_AB_C` counts one and two words. -/
theorem clip_bits_in_aux_witness :
    ((extract_AB_C 3 mem_example).aux 1) &&& 1 = 1 ∧
    (extract_AB_C 3 mem_example).clip 0 = 1 ∧ (extract_AB_C 3 mem_example).clip 1 = 2 :=
  ⟨((clip_bits_in_aux 3 mem_example (by decide) (by decide)).1 .AB_C 1 (by decide)).1,
    ((clip_bits_in_aux 3 mem_example (by decide) (by decide)).2 .AB_C (by decide)).1,
    ((clip_bits_in_aux 3 mem_example (by decide) (by decide)).2 .AB_C (by decide)).2⟩

theorem vector_contract_eq (a b p : Bool) (len : Nat) (m : Mem)
    (h0 : m.clip 0 < 2 ^ 64) (h1 : m.clip 1 < 2 ^ 64) :
    vector_contract a b p len m = gen_result a b p len 0 m := by
  have c0 := gen_result_clip0 false false len m h0
  have c1 := gen_result_clip1 false false len m h1
  simp only [gen_result, and_self, if_true, one_ne_zero, false_and, if_false] at c0 c1
  ext k
  · rfl
  · simp only [vector_contract, gen_result, SIZE_T_MOD]
    by_cases hk0 : k = 0 ∧ a = true
    · rw [if_pos hk0, if_pos hk0, c0]
    · rw [if_neg hk0, if_neg hk0]
      by_cases hk1 : k = 1 ∧ b = true
      · rw [if_pos hk1, if_pos hk1, c1]
      · rw [if_neg hk1, if_neg hk1]
  · simp only [vector_contract, gen_result, Nat.zero_le, true_and, Nat.zero_add, aux_byte_eq]
  · simp only [vector_contract, gen_result, Nat.zero_le, true_and, Nat.zero_add, MASK_1,
      sample_eq_spec _ _ (and_fff_le _)]
  · simp only [vector_contract, gen_result, Nat.zero_le, true_and, Nat.zero_add, raw_B_eq,
      sample_eq_spec _ _ (and_fff_le _)]

/-- C17: for each of the six variants, every block length and every memory whose counters
are `size_t` values, the vector kernel, taken as the contract the spec gives it, leaves
the same `outA`, `outB`, `aux` and counters as the scalar kernel of the source. -/
theorem vector_scalar_equivalence (k : ScalarKernel) (len : Nat) (m : Mem)
    (h0 : m.clip 0 < 2 ^ 64) (h1 : m.clip 1 < 2 ^ 64) :
    k.vector.run len m = k.run len m := by
  rw [run_eq]
  cases k <;> exact vector_contract_eq _ _ _ len m h0 h1

/-- Witness of C17: three words, a length that is not a multiple of four. -/
theorem vector_scalar_equivalence_witness :
    ConvFunction.extract_AB_p_sse.run 3 mem_example = extract_AB_p_C 3 mem_example :=
  vector_scalar_equivalence .AB_p_C 3 mem_example (by decide) (by decide)

theorem gen_result_compose (p : Bool) (len : Nat) (m : Mem) :
    gen_result false true p len 0 (gen_result true false p len 0 m)
      = gen_result true true p len 0 m ∧
    gen_result true false p len 0 (gen_result false true p len 0 m)
      = gen_result true true p len 0 m := by
  constructor <;> ext k <;>
    simp only [gen_result, Bool.false_eq_true, false_and, and_false, and_true, true_and,
      if_false, one_ne_zero, zero_ne_one, if_true, ite_self] <;>
    split_ifs <;> first | rfl | omega

/-- C18: on the same input block, `extract_A_C` followed by `extract_B_C`, in either
order, leaves exactly the memory that one call of `extract_AB_C` leaves, for every length
and initial memory; likewise `extract_A_p_C`, `extract_B_p_C` and `extract_AB_p_C`. -/
theorem combined_eq_composition (len : Nat) (m : Mem) :
    extract_B_C len (extract_A_C len m) = extract_AB_C len m ∧
    extract_A_C len (extract_B_C len m) = extract_AB_C len m ∧
    extract_B_p_C len (extract_A_p_C len m) = extract_AB_p_C len m ∧
    extract_A_p_C len (extract_B_p_C len m) = extract_AB_p_C len m := by
  simp only [extract_A_C_eq, extract_B_C_eq, extract_AB_C_eq, extract_A_p_C_eq,
    extract_B_p_C_eq, extract_AB_p_C_eq]
  exact ⟨(gen_result_compose false len m).1, (gen_result_compose false len m).2,
    (gen_result_compose true len m).1, (gen_result_compose true len m).2⟩

theorem sample_injective (p : Bool) (r1 r2 : Nat) (h1 : r1 ≤ 4095) (h2 : r2 ≤ 4095) :
    sample p r1 = sample p r2 ↔ r1 = r2 := by
  constructor
  · intro h
    cases p
    · rw [sample_unpadded r1 h1, sample_unpadded r2 h2] at h
      omega
    · rw [sample_padded_cases r1 h1, sample_padded_cases r2 h2] at h
      split_ifs at h <;> omega
  · intro h
    rw [h]

/-- C19: for every scalar kernel and each channel it writes, the samples stored for two
words (of the same or of different blocks) are equal exactly when the 12-bit raw fields of
that channel are equal: different raw fields never give the same sample, the padded
kernels at raw 0 included, and the sample depends on the raw field alone. -/
theorem lossless_encoding (k : ScalarKernel) (len len2 : Nat) (m m2 : Mem) (i j : Nat)
    (hi : i < len) (hj : j < len2) :
    (k.writes_A = true →
      ((k.run len m).outA i = (k.run len2 m2).outA j ↔
        m.inp i &&& 0xFFF = m2.inp j &&& 0xFFF)) ∧
    (k.writes_B = true →
      ((k.run len m).outB i = (k.run len2 m2).outB j ↔
        (m.inp i >>> 20) &&& 0xFFF = (m2.inp j >>> 20) &&& 0xFFF)) := by
  constructor
  · intro hk
    rw [run_outA k hk len m i hi, run_outA k hk len2 m2 j hj]
    exact sample_injective _ _ _ (and_fff_le _) (and_fff_le _)
  · intro hk
    rw [run_outB k hk len m i hi, run_outB k hk len2 m2 j hj]
    exact sample_injective _ _ _ (and_fff_le _) (and_fff_le _)

/-- Witness of C19: under `extract_AB_p_C` the word `0x00000000` (raw 0, the wrapped
sample) and the word `0xFFF00FFF` (raw 4095) get different A samples. -/
theorem lossless_encoding_witness :
    (extract_AB_p_C 4 mem_example).outA 3 ≠ (extract_AB_p_C 4 mem_example).outA 0 :=
  fun h => absurd
    (((lossless_encoding .AB_p_C 4 4 mem_example mem_example 3 0 (by decide) (by decide)).1
      rfl).mp h) (by decide)

/-! ## Claims on the configuration check -/

theorem usage_called_iff (cfg : Config) :
    usage_called cfg = true ↔
      (cfg.input_name_1 = none ∨ (cfg.output_name_1 ≠ none ∧ cfg.output_name_2 ≠ none ∧
        cfg.output_name_aux ≠ none)) := by
  unfold usage_called
  cases cfg.input_name_1 <;> cases cfg.output_name_1 <;> cases cfg.output_name_2 <;>
    cases cfg.output_name_aux <;> simp

/-- C15: the run ends in the usage message exactly when the input path is absent or all
three output paths are present; every other configuration passes the check. -/
theorem validation_rule (x86_64 : Bool) (check_cpu_feat : Int) (cfg : Config)
    (reads : List ReadResult) (s : DriverState) :
    (usage_called cfg = true ↔
      (cfg.input_name_1 = none ∨ (cfg.output_name_1 ≠ none ∧ cfg.output_name_2 ≠ none ∧
        cfg.output_name_aux ≠ none))) ∧
    (main_run x86_64 check_cpu_feat cfg reads s = none ↔
      (cfg.input_name_1 = none ∨ (cfg.output_name_1 ≠ none ∧ cfg.output_name_2 ≠ none ∧
        cfg.output_name_aux ≠ none))) := by
  refine ⟨usage_called_iff cfg, ?_⟩
  rw [← usage_called_iff]
  unfold main_run
  by_cases h : usage_called cfg = true
  · simp [h]
  · simp only [h, Bool.false_eq_true, if_false, iff_false]
    split_ifs <;> simp

theorem loop_body_fread_returns (conv_function : Nat → Mem → Mem) (cfg : Config)
    (r : ReadResult) (s : DriverState) :
    (loop_body conv_function cfg r s).fread_returns
      = s.fread_returns ++ [to_int32 (r.words.length : Int)] := rfl

theorem main_loop_reads_once (conv_function : Nat → Mem → Mem) (cfg : Config) :
    ∀ (reads : List ReadResult) (s : DriverState),
      s.fread_returns.length < (main_loop conv_function cfg reads s).fread_returns.length
  | [], s => by
    rw [main_loop, loop_body_fread_returns]
    simp
  | r :: rest, s => by
    rw [main_loop]
    split_ifs
    · rw [loop_body_fread_returns]
      simp
    · have h := main_loop_reads_once conv_function cfg rest (loop_body conv_function cfg r s)
      rw [loop_body_fread_returns] at h
      simp only [List.length_append, List.length_singleton] at h
      omega

/-- C16, as the code has it: a configuration that passes the check has the input path and
lacks at least one output; when it selects at least one of A, B, AUX the loop is entered
and at least one read is made; when it selects none the loop is skipped and the state is
left as it was. -/
theorem loop_entered_iff_output (x86_64 : Bool) (check_cpu_feat : Int) (cfg : Config)
    (reads : List ReadResult) (s : DriverState) (hacc : usage_called cfg = false) :
    (cfg.input_name_1 ≠ none ∧
      ¬ (cfg.output_name_1 ≠ none ∧ cfg.output_name_2 ≠ none ∧ cfg.output_name_aux ≠ none)) ∧
    ((cfg.output_name_1 ≠ none ∨ cfg.output_name_2 ≠ none ∨ cfg.output_name_aux ≠ none) →
      main_run x86_64 check_cpu_feat cfg reads s =
        some (main_loop (select_conv_function x86_64 check_cpu_feat cfg.pad
          cfg.output_name_1 cfg.output_name_2).run cfg reads s) ∧
      s.fread_returns.length <
        (main_loop (select_conv_function x86_64 check_cpu_feat cfg.pad
          cfg.output_name_1 cfg.output_name_2).run cfg reads s).fread_returns.length) ∧
    ((cfg.output_name_1 = none ∧ cfg.output_name_2 = none ∧ cfg.output_name_aux = none) →
      main_run x86_64 check_cpu_feat cfg reads s = some s) := by
  have hnot : ¬ (cfg.input_name_1 = none ∨ (cfg.output_name_1 ≠ none ∧
      cfg.output_name_2 ≠ none ∧ cfg.output_name_aux ≠ none)) := by
    rw [← usage_called_iff, hacc]
    simp
  have hin : cfg.input_name_1 ≠ none := fun h => hnot (Or.inl h)
  have hinp : cfg.input_name_1.isSome = true := Option.isSome_iff_ne_none.mpr hin
  refine ⟨⟨hin, fun h => hnot (Or.inr h)⟩, ?_, ?_⟩
  · intro hsel
    have hany : (cfg.output_name_1.isSome || cfg.output_name_2.isSome ||
        cfg.output_name_aux.isSome) = true := by
      cases h1 : cfg.output_name_1 <;> cases h2 : cfg.output_name_2 <;>
        cases h3 : cfg.output_name_aux <;> simp_all
    refine ⟨?_, main_loop_reads_once _ cfg reads s⟩
    simp only [main_run, hacc, hinp, hany, Bool.and_self, if_true, Bool.false_eq_true, if_false]
  · rintro ⟨h1, h2, h3⟩
    simp [main_run, hacc, h1, h2, h3]

/-- Witness of C16 as amended: input and output A, one block of one word. -/
theorem loop_entered_iff_output_witness :
    main_run false 1 (cfg_example true false false false)
        (clean_reads [[0x00003000]] true) state_example =
      some (main_loop (select_conv_function false 1 false (some "a.s16") none).run
        (cfg_example true false false false) (clean_reads [[0x00003000]] true) state_example) :=
  ((loop_entered_iff_output false 1 (cfg_example true false false false)
    (clean_reads [[0x00003000]] true) state_example (by decide)).2.1
      (Or.inl (by simp [cfg_example]))).1

/-- C16 fails as stated: the configuration with the input path and no output passes the
check, yet the loop is not entered: no read is made and nothing is written. -/
theorem accepted_without_output :
    usage_called (cfg_example false false false false) = false ∧
    (cfg_example false false false false).output_name_1 = none ∧
    (cfg_example false false false false).output_name_2 = none ∧
    (cfg_example false false false false).output_name_aux = none ∧
    (main_run false 1 (cfg_example false false false false)
      (clean_reads [[0x00003000]] true) state_example).map
        (fun s => (s.fread_returns, s.output_1, s.output_2, s.output_aux)) =
      some ([], [], [], []) := by
  decide

/-! ## Claims on the passes of the loop -/

theorem main_loop_cons_false (conv_function : Nat → Mem → Mem) (cfg : Config)
    (r : ReadResult) (rest : List ReadResult) (s : DriverState) (h : r.eof = false) :
    main_loop conv_function cfg (r :: rest) s
      = main_loop conv_function cfg rest (loop_body conv_function cfg r s) := by
  simp only [main_loop, h, Bool.false_eq_true, if_false]

theorem to_int32_zero : to_int32 ((0 : Nat) : Int) = 0 := by decide

theorem main_loop_eof (conv_function : Nat → Mem → Mem) (cfg : Config) (r : ReadResult)
    (rest : List ReadResult) (hr : r.eof = true) :
    ∀ (pre : List ReadResult) (s : DriverState), (∀ x ∈ pre, x.eof = false) →
      main_loop conv_function cfg (pre ++ r :: rest) s
        = main_loop conv_function cfg (pre ++ [r]) s ∧
      (main_loop conv_function cfg (pre ++ r :: rest) s).fread_returns
        = s.fread_returns ++ (pre ++ [r]).map (fun x => to_int32 (x.words.length : Int))
  | [], s, _ => by
    simp only [List.nil_append, main_loop, hr, if_true, loop_body_fread_returns,
      List.map_cons, List.map_nil]
    exact ⟨trivial, trivial⟩
  | p :: pre, s, hpre => by
    have hp : p.eof = false := hpre p (List.mem_cons_self _ _)
    have ih := main_loop_eof conv_function cfg r rest hr pre
      (loop_body conv_function cfg p s) (fun x hx => hpre x (List.mem_cons_of_mem _ hx))
    rw [List.cons_append, List.cons_append, main_loop_cons_false _ _ _ _ _ hp,
      main_loop_cons_false _ _ _ _ _ hp]
    refine ⟨ih.1, ?_⟩
    rw [ih.2, loop_body_fread_returns]
    simp

theorem main_loop_exhausted (conv_function : Nat → Mem → Mem) (cfg : Config) :
    ∀ (reads : List ReadResult) (s : DriverState), (∀ x ∈ reads, x.eof = false) →
      (main_loop conv_function cfg reads s).fread_returns
        = s.fread_returns ++ reads.map (fun x => to_int32 (x.words.length : Int)) ++ [0]
  | [], s, _ => by
    rw [main_loop, loop_body_fread_returns]
    simp only [List.length_nil, List.map_nil, List.append_nil]
    rw [to_int32_zero]
  | p :: pre, s, hpre => by
    have hp : p.eof = false := hpre p (List.mem_cons_self _ _)
    have ih := main_loop_exhausted conv_function cfg pre
      (loop_body conv_function cfg p s) (fun x hx => hpre x (List.mem_cons_of_mem _ hx))
    rw [main_loop_cons_false _ _ _ _ _ hp, ih, loop_body_fread_returns]
    simp

/-- C13, as the code has it: a read that returns with the end-of-file indicator set, a
read of zero words at the end of the input in particular, is the last read of the loop:
whatever the stream would deliver afterwards is never read, and the reads made are those
up to and including it; when the stream delivers no such read, the loop ends on the
zero-word read that finds the end of the input. -/
theorem eof_terminates (conv_function : Nat → Mem → Mem) (cfg : Config)
    (pre : List ReadResult) (r : ReadResult) (rest : List ReadResult) (s : DriverState)
    (hpre : ∀ x ∈ pre, x.eof = false) (hr : r.eof = true) :
    main_loop conv_function cfg (pre ++ r :: rest) s
      = main_loop conv_function cfg (pre ++ [r]) s ∧
    (main_loop conv_function cfg (pre ++ r :: rest) s).fread_returns
      = s.fread_returns ++ (pre ++ [r]).map (fun x => to_int32 (x.words.length : Int)) ∧
    (main_loop conv_function cfg pre s).fread_returns
      = s.fread_returns ++ pre.map (fun x => to_int32 (x.words.length : Int)) ++ [0] :=
  ⟨(main_loop_eof conv_function cfg r rest hr pre s hpre).1,
    (main_loop_eof conv_function cfg r rest hr pre s hpre).2,
    main_loop_exhausted conv_function cfg pre s hpre⟩

/-- Witness of C13 as amended: a block of one word, then a zero-word read at the end of
the input; the block the stream holds after it is never read. -/
theorem eof_terminates_witness :
    (main_loop extract_A_C (cfg_example true false false false)
      ([{ words := [0x00003000], eof := false }] ++
        { words := [], eof := true } :: [{ words := [0xFFF00FFF], eof := true }])
      state_example).fread_returns = [1, 0] :=
  (eof_terminates extract_A_C (cfg_example true false false false)
    [{ words := [0x00003000], eof := false }] { words := [], eof := true }
    [{ words := [0xFFF00FFF], eof := true }] state_example
    (by simp) rfl).2.1

/-- C13 fails as stated: a read that returns zero words on a read error leaves the
end-of-file indicator clear, the loop goes on, writes an empty block and reads again. -/
theorem read_error_does_not_terminate :
    (main_run false 1 (cfg_example true false false false)
      [{ words := [], eof := false }, { words := [0x00003000], eof := true }]
      state_example).map (fun s => (s.fread_returns, s.output_1)) =
      some ([0, 1], [[], [2048]]) := by
  decide

theorem conv_run_eq (f : ConvFunction) (len : Nat) (m : Mem)
    (h0 : m.clip 0 < 2 ^ 64) (h1 : m.clip 1 < 2 ^ 64) :
    f.run len m =
      gen_result f.variant.writes_A f.variant.writes_B f.variant.padded len 0 m := by
  cases f
  · exact run_eq .A_C len m
  · exact run_eq .B_C len m
  · exact run_eq .AB_C len m
  · exact run_eq .A_p_C len m
  · exact run_eq .B_p_C len m
  · exact run_eq .AB_p_C len m
  all_goals exact vector_contract_eq _ _ _ len m h0 h1

theorem filter_fread_length (ws : List Nat) (buf : Nat → Nat) (q : Nat → Bool) :
    ((List.range ws.length).filter (fun i => q (fread_store ws buf i))).length
      = (ws.filter q).length := by
  have hmap : (List.range ws.length).map (fread_store ws buf) = ws.map id :=
    map_range_fread ws buf id (fread_store ws buf) (fun _ _ => rfl)
  rw [List.map_id] at hmap
  calc ((List.range ws.length).filter (fun i => q (fread_store ws buf i))).length
      = (((List.range ws.length).filter (q ∘ fread_store ws buf)).map
          (fread_store ws buf)).length := by rw [List.length_map]; rfl
    _ = (((List.range ws.length).map (fread_store ws buf)).filter q).length := by
        rw [List.filter_map]
    _ = (ws.filter q).length := by rw [hmap]

theorem block_clip (f : ConvFunction) (ws : List Nat) (m : Mem)
    (hlen : ws.length ≤ BUFFER_SIZE) (h0 : m.clip 0 = 0) (h1 : m.clip 1 = 0)
    (buf : Nat → Nat) (hinp : m.inp = fread_store ws buf) :
    (f.run ws.length m).clip 0
      = (if f.variant.writes_A = true then (ws.filter (fun w => w.testBit 12)).length else 0) ∧
    (f.run ws.length m).clip 1
      = (if f.variant.writes_B = true then (ws.filter (fun w => w.testBit 13)).length else 0) := by
  have hA : (ws.filter (fun w => w.testBit 12)).length ≤ ws.length := List.length_filter_le _ _
  have hB : (ws.filter (fun w => w.testBit 13)).length ≤ ws.length := List.length_filter_le _ _
  unfold BUFFER_SIZE at hlen
  rw [conv_run_eq f ws.length m (by omega) (by omega)]
  constructor
  · cases hw : f.variant.writes_A
    · simp [gen_result, h0]
    · rw [gen_result_clip0 _ _ _ m (by omega), hinp,
        filter_fread_length ws buf (fun w => w.testBit 12), h0, if_pos rfl, Nat.zero_add]
      exact Nat.mod_eq_of_lt (by omega)
  · cases hw : f.variant.writes_B
    · simp [gen_result, h1]
    · rw [gen_result_clip1 _ _ _ m (by omega), hinp,
        filter_fread_length ws buf (fun w => w.testBit 13), h1, if_pos rfl, Nat.zero_add]
      exact Nat.mod_eq_of_lt (by omega)

theorem loop_body_clip_zero (conv_function : Nat → Mem → Mem) (cfg : Config)
    (r : ReadResult) (s : DriverState) :
    (loop_body conv_function cfg r s).clip 0 = 0 ∧
      (loop_body conv_function cfg r s).clip 1 = 0 := by
  simp only [loop_body]
  constructor <;> split_ifs <;> simp_all [Function.update_apply]

theorem loop_body_stderr (conv_function : Nat → Mem → Mem) (cfg : Config)
    (r : ReadResult) (s : DriverState) (m : Mem)
    (hm : m = conv_function (int_to_size_t (to_int32 (r.words.length : Int)))
      { inp := fread_store r.words s.buf_tmp, clip := s.clip, aux := s.buf_aux,
        outA := s.buf_1, outB := s.buf_2 }) :
    (loop_body conv_function cfg r s).stderr =
      s.stderr ++ (if m.clip 0 > 0 then [Diag.clipped_A (m.clip 0)] else []) ++
        (if m.clip 1 > 0 then [Diag.clipped_B (m.clip 1)] else []) := by
  subst hm
  simp only [loop_body]
  split_ifs <;> simp_all [Function.update_apply]

theorem iterations_head (conv_function : Nat → Mem → Mem) (cfg : Config)
    (reads : List ReadResult) (s : DriverState) :
    ∃ r, (iterations conv_function cfg reads s).head? = some (s, r) := by
  cases reads with
  | nil => exact ⟨_, rfl⟩
  | cons r rest => exact ⟨r, rfl⟩

/-- The list `iterations` is the run of the loop: each pass starts in the state the pass
before it has left. -/
theorem iterations_chain (conv_function : Nat → Mem → Mem) (cfg : Config) :
    ∀ (reads : List ReadResult) (s : DriverState),
      List.Chain' (fun a b => b.1 = loop_body conv_function cfg a.2 a.1)
        (iterations conv_function cfg reads s)
  | [], s => by simp [iterations]
  | r :: rest, s => by
    rw [iterations, List.chain'_cons']
    by_cases h : r.eof = true
    · simp [h]
    · simp only [h, Bool.false_eq_true, if_false]
      refine ⟨?_, iterations_chain conv_function cfg rest _⟩
      intro y hy
      obtain ⟨r2, hr2⟩ := iterations_head conv_function cfg rest
        (loop_body conv_function cfg r s)
      rw [hr2] at hy
      simp only [Option.mem_def, Option.some.injEq] at hy
      rw [← hy]

/-- The state `main_loop` returns is the one the last pass of `iterations` leaves. -/
theorem iterations_last (conv_function : Nat → Mem → Mem) (cfg : Config) :
    ∀ (reads : List ReadResult) (s : DriverState),
      ∃ t r, (iterations conv_function cfg reads s).getLast? = some (t, r) ∧
        main_loop conv_function cfg reads s = loop_body conv_function cfg r t
  | [], s => ⟨s, _, rfl, rfl⟩
  | r :: rest, s => by
    by_cases h : r.eof = true
    · refine ⟨s, r, ?_, ?_⟩
      · simp [iterations, h]
      · simp [main_loop, h]
    · obtain ⟨t, r2, h1, h2⟩ := iterations_last conv_function cfg rest
        (loop_body conv_function cfg r s)
      refine ⟨t, r2, ?_, ?_⟩
      · rw [iterations, List.getLast?_cons]
        simp only [h, Bool.false_eq_true, if_false, h1, Option.getD_some]
      · rw [main_loop_cons_false _ _ _ _ _ (by simpa using h), h2]

theorem iterations_clip_zero (conv_function : Nat → Mem → Mem) (cfg : Config) :
    ∀ (reads : List ReadResult) (s : DriverState), s.clip 0 = 0 ∧ s.clip 1 = 0 →
      ∀ it ∈ iterations conv_function cfg reads s, it.1.clip 0 = 0 ∧ it.1.clip 1 = 0
  | [], s, hs => by
    intro it hit
    simp only [iterations, List.mem_singleton] at hit
    rw [hit]
    exact hs
  | r :: rest, s, hs => by
    intro it hit
    rw [iterations, List.mem_cons] at hit
    rcases hit with rfl | hit
    · exact hs
    · by_cases h : r.eof = true
      · simp [h] at hit
      · simp only [h, Bool.false_eq_true, if_false] at hit
        exact iterations_clip_zero conv_function cfg rest _
          (loop_body_clip_zero conv_function cfg r s) it hit

theorem loop_body_block_reports (f : ConvFunction) (cfg : Config) (r : ReadResult)
    (s : DriverState) (hlen : r.words.length ≤ BUFFER_SIZE)
    (h0 : s.clip 0 = 0) (h1 : s.clip 1 = 0) :
    (loop_body f.run cfg r s).stderr = s.stderr ++ block_reports f r.words := by
  obtain ⟨-, hsz⟩ := nb_block_exact r.words.length hlen
  have hc := block_clip f r.words
    { inp := fread_store r.words s.buf_tmp, clip := s.clip, aux := s.buf_aux,
      outA := s.buf_1, outB := s.buf_2 } hlen h0 h1 s.buf_tmp rfl
  rw [loop_body_stderr f.run cfg r s _ rfl, hsz, hc.1, hc.2, block_reports, List.append_assoc]
  cases f.variant.writes_A <;> cases f.variant.writes_B <;> simp

/-- C12: both counters are zero when the loop is reached and after every pass of its
body, whatever the kernel has added, hence at the start of every pass; and the lines a
pass prints carry, for each channel the kernel counts, the number of flag bits set in the
words of that pass alone. -/
theorem reset_per_block (conv_function : Nat → Mem → Mem) (f : ConvFunction) (cfg : Config)
    (reads : List ReadResult)
    (buf_tmp : Nat → Nat) (buf_1 buf_2 : Nat → Int) (buf_aux : Nat → Nat) :
    ((initial_state buf_tmp buf_1 buf_2 buf_aux).clip 0 = 0 ∧
      (initial_state buf_tmp buf_1 buf_2 buf_aux).clip 1 = 0) ∧
    (∀ (r : ReadResult) (s : DriverState),
      (loop_body conv_function cfg r s).clip 0 = 0 ∧
      (loop_body conv_function cfg r s).clip 1 = 0) ∧
    (∀ it ∈ iterations conv_function cfg reads (initial_state buf_tmp buf_1 buf_2 buf_aux),
      it.1.clip 0 = 0 ∧ it.1.clip 1 = 0) ∧
    (∀ it ∈ iterations f.run cfg reads (initial_state buf_tmp buf_1 buf_2 buf_aux),
      it.2.words.length ≤ BUFFER_SIZE →
      (loop_body f.run cfg it.2 it.1).stderr = it.1.stderr ++ block_reports f it.2.words) := by
  refine ⟨⟨rfl, rfl⟩, loop_body_clip_zero conv_function cfg,
    iterations_clip_zero conv_function cfg reads _ ⟨rfl, rfl⟩, ?_⟩
  intro it hit hlen
  obtain ⟨h0, h1⟩ := iterations_clip_zero f.run cfg reads _ ⟨rfl, rfl⟩ it hit
  exact loop_body_block_reports f cfg it.2 it.1 hlen h0 h1

/-- Witness of C12: two blocks of one clipped word each under `extract_AB_C`; the second
pass reports one A and one B sample, not two. -/
theorem reset_per_block_witness :
    (loop_body ConvFunction.extract_AB_C.run (cfg_example true true false false)
      { words := [0x00003000], eof := true }
      (loop_body ConvFunction.extract_AB_C.run (cfg_example true true false false)
        { words := [0x00003000], eof := false } state_example)).stderr
      = [Diag.clipped_A 1, Diag.clipped_B 1] ++ [Diag.clipped_A 1, Diag.clipped_B 1] :=
  (reset_per_block ConvFunction.extract_AB_C.run .extract_AB_C
    (cfg_example true true false false)
    [{ words := [0x00003000], eof := false }, { words := [0x00003000], eof := true }]
    (fun _ => 0) (fun _ => 0) (fun _ => 0) (fun _ => 0)).2.2.2
    (loop_body ConvFunction.extract_AB_C.run (cfg_example true true false false)
        { words := [0x00003000], eof := false } state_example,
      { words := [0x00003000], eof := true })
    (List.mem_cons_of_mem _ (List.mem_cons_self _ _)) (by decide)

end Misrc
